import Mathlib

set_option maxRecDepth 8000

/-!
Verification development for a Linux connection-tracking monitor
(conntrack parsing, aggregation, anomaly scoring, snapshot persistence).

The Python sources are shallowly embedded: Python strings are processed over
their character lists (ASCII subset: Unicode whitespace/digit classes are not
modelled), Python dicts over string keys become association lists, machine
integers are unbounded in Python and are embedded as Int, floats produced by
the feature extractor are embedded as Rat, and code that can raise returns
Option/Except.
-/

/-! ## Python string primitives -/

/-- ASCII whitespace recognised by Python str.split()/str.strip(). -/
def pyIsSpace (c : Char) : Bool :=
  c = ' ' || c = '\t' || c = '\n' || c = '\r' || c = '\x0b' || c = '\x0c'

/-- Worker for whitespace splitting; accumulates the current token reversed. -/
def splitWsAux : List Char → List Char → List (List Char)
  | [], acc => if acc.isEmpty then [] else [acc.reverse]
  | c :: cs, acc =>
    if pyIsSpace c then
      if acc.isEmpty then splitWsAux cs [] else acc.reverse :: splitWsAux cs []
    else splitWsAux cs (c :: acc)

/-- Python str.split() with no separator: split on whitespace runs, no empties. -/
def pySplitWs (s : String) : List String :=
  (splitWsAux s.data []).map String.mk

/-- Worker for splitting on a newline character. -/
def splitNlAux : List Char → List Char → List (List Char)
  | [], acc => [acc.reverse]
  | c :: cs, acc =>
    if c = '\n' then acc.reverse :: splitNlAux cs [] else splitNlAux cs (c :: acc)

/-- Python s.split(chr(10)): keeps empty pieces, yields one piece for "". -/
def pySplitNl (s : String) : List String :=
  (splitNlAux s.data []).map String.mk

def pyStripChars (l : List Char) : List Char :=
  ((l.dropWhile pyIsSpace).reverse.dropWhile pyIsSpace).reverse

/-- Python str.strip() with no argument. -/
def pyStrip (s : String) : String := String.mk (pyStripChars s.data)

/-- Python: c in s, for a single character c. -/
def strContains (s : String) (c : Char) : Bool := s.data.contains c

def isPrefixL : List Char → List Char → Bool
  | [], _ => true
  | _ :: _, [] => false
  | a :: as, b :: bs => a = b && isPrefixL as bs

/-- Python str.startswith. -/
def strStartsWith (s p : String) : Bool := isPrefixL p.data s.data

/-- Python str.endswith. -/
def strEndsWith (s p : String) : Bool := isPrefixL p.data.reverse s.data.reverse

def hasSubL (pat : List Char) : List Char → Bool
  | [] => isPrefixL pat []
  | c :: rest => isPrefixL pat (c :: rest) || hasSubL pat rest

/-- Python: pat in s (substring containment). -/
def hasSubstr (s pat : String) : Bool := hasSubL pat.data s.data

def isBracketChar (c : Char) : Bool := c = '[' || c = ']'

/-- Python s.strip(brackets-argument): drop bracket characters from both ends. -/
def pyStripBr (s : String) : String :=
  String.mk (((s.data.dropWhile isBracketChar).reverse.dropWhile isBracketChar).reverse)

/-- Python str.isdigit() (ASCII digits). -/
def pyIsDigitStr (s : String) : Bool := !s.data.isEmpty && s.data.all Char.isDigit

def digitsToNat (l : List Char) : Nat := l.foldl (fun a c => a * 10 + (c.toNat - 48)) 0

def strToNat (s : String) : Nat := digitsToNat s.data

def noDoubleUnderscoreL : List Char → Bool
  | [] => true
  | [_] => true
  | a :: b :: rest => !(a = '_' && b = '_') && noDoubleUnderscoreL (b :: rest)

/-- Digit body accepted by Python int(): digits with single interior underscores. -/
def pyIntBody (l : List Char) : Option Nat :=
  if l.isEmpty then none
  else if !(l.headD '0').isDigit then none
  else if !(l.getLastD '0').isDigit then none
  else if !(l.all (fun c => c.isDigit || c = '_')) then none
  else if !noDoubleUnderscoreL l then none
  else some (digitsToNat (l.filter (fun c => c ≠ '_')))

/-- Python int(s) on a decimal string: some value, or none when it raises ValueError. -/
def pyInt? (s : String) : Option Int :=
  match pyStripChars s.data with
  | '+' :: rest => (pyIntBody rest).map (fun v => (v : Int))
  | '-' :: rest => (pyIntBody rest).map (fun v => -(v : Int))
  | l => (pyIntBody l).map (fun v => (v : Int))

/-- Python str.lower() (ASCII). -/
def toLowerStr (s : String) : String := String.mk (s.data.map Char.toLower)

/-- Python str.upper() (ASCII). -/
def toUpperStr (s : String) : String := String.mk (s.data.map Char.toUpper)

/-- Key part of Python part.split(eq-sign, 1). -/
def splitEqKey (s : String) : String := String.mk (s.data.takeWhile (fun c => c ≠ '='))

/-- Value part of Python part.split(eq-sign, 1). -/
def splitEqVal (s : String) : String :=
  String.mk ((s.data.dropWhile (fun c => c ≠ '=')).drop 1)

/-! ## Python values and dicts -/

/-- A Python value as it appears in the repository's connection dicts:
a string, an int, or a bool. -/
inductive Val where
  | s (v : String)
  | n (v : Int)
  | b (v : Bool)
deriving DecidableEq

abbrev PyDict := List (String × Val)

/-- Lookup of a key in a dict (keys are unique by construction via dictSet). -/
def dictGet : PyDict → String → Option Val
  | [], _ => none
  | (k, v) :: rest, key => if k = key then some v else dictGet rest key

/-- Python d[key] = v: replace in place, or append a fresh key at the end. -/
def dictSet : PyDict → String → Val → PyDict
  | [], key, v => [(key, v)]
  | (k, w) :: rest, key, v =>
    if k = key then (k, v) :: rest else (k, w) :: dictSet rest key v

/-- Python d.get(key, dflt). -/
def dictGetD (d : PyDict) (key : String) (dflt : Val) : Val := (dictGet d key).getD dflt

/-- Python: key in d. -/
def dictContains (d : PyDict) (key : String) : Bool := (dictGet d key).isSome

/-- Python truthiness of a value. -/
def pyTruthy : Val → Bool
  | .s v => v ≠ ""
  | .n v => v ≠ 0
  | .b v => v

/-! ## ConntrackParser._parse_conntrack_output -/

def knownStates : List String :=
  ["TIME_WAIT", "ESTABLISHED", "CLOSE", "CLOSE_WAIT", "SYN_SENT",
   "SYN_RECV", "FIN_WAIT", "LAST_ACK", "LISTEN", "NEW", "RELATED", "NONE"]

def isExtFam (p : String) : Bool := p = "ipv4" || p = "ipv6"

/-- conn[protocol]: index 2 lower-cased in the extended layout, else index 0. -/
def protocolVal (parts : List String) : String :=
  if isExtFam (parts.getD 0 "") then
    if parts.length > 2 then toLowerStr (parts.getD 2 "") else parts.getD 0 ""
  else toLowerStr (parts.getD 0 "")

/-- The state-token acceptance test of the source. -/
def stateTokOk (t : String) : Bool :=
  knownStates.contains t ||
    (!strContains t '=' && !pyIsDigitStr t && !strStartsWith t "[")

/-- conn[state] and state_idx, for the extended (index 5) and default (index 3)
layouts. -/
def stateOf (parts : List String) : String × Nat :=
  if isExtFam (parts.getD 0 "") then
    if parts.length > 5 then
      if stateTokOk (parts.getD 5 "") then (parts.getD 5 "", 6) else ("NONE", 5)
    else ("NONE", 5)
  else
    if parts.length > 3 then
      if stateTokOk (parts.getD 3 "") then (parts.getD 3 "", 4) else ("NONE", 3)
    else ("NONE", 3)

/-- State threaded through the key=value loop:
the dict plus bytes_sent, bytes_recv, first_bytes_seen. -/
structure KVState where
  conn : PyDict
  sent : Int
  recv : Int
  seen : Bool
deriving DecidableEq

/-- One iteration of the key=value / bracket-group loop of
_parse_conntrack_output. -/
def kvStep (st : KVState) (part : String) : KVState :=
  if strContains part '=' then
    let key := splitEqKey part
    let value := splitEqVal part
    if (key = "src" || key = "dst" || key = "sport" || key = "dport") &&
        !dictContains st.conn key then
      { st with conn := dictSet st.conn key (Val.s value) }
    else if key = "mark" || key = "use" then
      { st with conn := dictSet st.conn key (Val.s value) }
    else if key = "bytes" then
      match pyInt? value with
      | some v => if !st.seen then { st with sent := v, seen := true }
                  else { st with recv := v }
      | none => st
    else st
  else if strStartsWith part "[" && strEndsWith part "]" then
    let flags := pyStripBr part
    let c1 := dictSet st.conn "flags" (Val.s flags)
    let c2 := if hasSubstr flags "ASSURED" then dictSet c1 "assured" (Val.b true) else c1
    let c3 := if hasSubstr flags "UNREPLIED" then dictSet c2 "unreplied" (Val.b true) else c2
    { st with conn := c3 }
  else st

/-- The dict right before the loop: protocol and state assigned. -/
def connInit (parts : List String) : PyDict :=
  dictSet (dictSet [] "protocol" (Val.s (protocolVal parts))) "state"
    (Val.s (stateOf parts).1)

/-- The tokens the key=value loop scans: parts from state_idx onward. -/
def kvRegion (parts : List String) : List String := parts.drop (stateOf parts).2

def connAfterKV (parts : List String) : KVState :=
  (kvRegion parts).foldl kvStep ⟨connInit parts, 0, 0, false⟩

/-- The dict after the loop and the unconditional bytes assignments. -/
def connFinal (parts : List String) : PyDict :=
  let st := connAfterKV parts
  dictSet (dictSet (dictSet st.conn "bytes_sent" (Val.n st.sent))
    "bytes_recv" (Val.n st.recv)) "total_bytes" (Val.n (st.sent + st.recv))

/-- One line of _parse_conntrack_output; none when the line contributes no
record (fewer than 4 tokens, or src/dst missing). -/
def parseConnLine (line : String) : Option PyDict :=
  if (pySplitWs line).length < 4 then none
  else if dictContains (connFinal (pySplitWs line)) "src" &&
      dictContains (connFinal (pySplitWs line)) "dst" then
    some (connFinal (pySplitWs line))
  else none

/-- ConntrackParser._parse_conntrack_output. -/
def parse_conntrack_output (output : String) : List PyDict :=
  ((pySplitNl output).filter (fun l => pyStrip l ≠ "")).filterMap
    (fun l => if pyStrip l = "" then none else parseConnLine l)

/-! ## ConntrackParser._parse_proc_conntrack -/

/-- The proc dict before its key=value loop: protocol at token 2, state at
token 3. -/
def procInit (parts : List String) : PyDict :=
  dictSet
    (dictSet [] "protocol"
      (Val.s (if parts.length > 2 then parts.getD 2 "" else "unknown")))
    "state" (Val.s (if parts.length > 3 then parts.getD 3 "" else "UNKNOWN"))

/-- One iteration of the proc key=value loop (every key=value token assigns). -/
def procStep (c : PyDict) (part : String) : PyDict :=
  if strContains part '=' then dictSet c (splitEqKey part) (Val.s (splitEqVal part))
  else c

def procAfterKV (parts : List String) : PyDict :=
  (parts.drop 4).foldl procStep (procInit parts)

/-- One line of _parse_proc_conntrack. -/
def parseProcLine (line : String) : Option PyDict :=
  if (pySplitWs line).length < 4 then none
  else if dictContains (procAfterKV (pySplitWs line)) "src" &&
      dictContains (procAfterKV (pySplitWs line)) "dst" then
    some (procAfterKV (pySplitWs line))
  else none

/-- ConntrackParser._parse_proc_conntrack. -/
def parse_proc_conntrack (content : String) : List PyDict :=
  (pySplitNl (pyStrip content)).filterMap
    (fun l => if pyStrip l = "" then none else parseProcLine l)

/-! ## Stable sorting (Python sorted / list.sort) -/

/-- Insert x before the first element y with "before x y"; placing x after
equal elements makes the sort stable, as Python's sorts are. -/
def insertStable (before : α → α → Bool) (x : α) : List α → List α
  | [] => [x]
  | y :: ys => if before x y then x :: y :: ys else y :: insertStable before x ys

/-- Stable sort by repeated insertion. With before x y := key x < key y this is
Python's ascending sorted(); with before x y := key y < key x it is
sorted(reverse=True). -/
def sortStable (before : α → α → Bool) (l : List α) : List α :=
  l.foldl (fun acc x => insertStable before x acc) []

/-! ## ConntrackParser.aggregate_by_port -/

/-- defaultdict(int)-style bump of a counter keyed by a Val, preserving
first-insertion order. -/
def bumpCount : List (Val × Nat) → Val → List (Val × Nat)
  | [], k => [(k, 1)]
  | (k', c) :: rest, k =>
    if k' = k then (k', c + 1) :: rest else (k', c) :: bumpCount rest k

/-- The sort key of aggregate_by_port: int(x) for all-digit strings, 0 for other
strings; none models the AttributeError raised by .isdigit() on a non-string. -/
def portSortKey : Val → Option Int
  | .s v => some (if pyIsDigitStr v then (strToNat v : Int) else 0)
  | _ => none

/-- Total version of the port sort key, valid on the lists aggregate_by_port
actually returns (all keys strings). -/
def portSortKeyD (v : Val) : Int := (portSortKey v).getD 0

/-- The counting loop of aggregate_by_port: ports equal to the absent-port
sentinel string unknown are not counted. -/
def portCountStep (port_type : String) (acc : List (Val × Nat)) (conn : PyDict) :
    List (Val × Nat) :=
  let port := dictGetD conn port_type (Val.s "unknown")
  if port ≠ Val.s "unknown" then bumpCount acc port else acc

def portCounts (connections : List PyDict) (port_type : String) : List (Val × Nat) :=
  connections.foldl (portCountStep port_type) []

/-- ConntrackParser.aggregate_by_port; none models the exception raised while
sorting if some counted port value is not a string. -/
def aggregate_by_port (connections : List PyDict) (port_type : String)
    (top_n : Nat) : Option (List (Val × Nat)) :=
  match (portCounts connections port_type).mapM
      (fun p => (portSortKey p.1).map (fun k => (k, p))) with
  | none => none
  | some keyed =>
    some (((sortStable (fun a b => decide (b.1 < a.1)) keyed).map
      (fun kp => kp.2)).take top_n)

/-! ## ConntrackParser.get_grouping_stats -/

/-- One stats bucket: count, bytes_sent, bytes_recv, total_bytes. -/
structure Bucket where
  count : Int
  bytes_sent : Int
  bytes_recv : Int
  total_bytes : Int
deriving DecidableEq

/-- Python int(v): some integer, or none when int() raises. -/
def pyIntOfVal : Val → Option Int
  | .n v => some v
  | .b v => some (if v then 1 else 0)
  | .s v => pyInt? v

/-- Python str(v), as used by the f-string building the port grouping key. -/
def pyStrVal : Val → String
  | .s v => v
  | .n v => toString v
  | .b v => if v then "True" else "False"

/-- The grouping key; outer none models an exception (upper() on a non-string),
inner none models Python None (unrecognised group_by). -/
def groupKeyOf (group_by : String) (conn : PyDict) : Option (Option Val) :=
  if group_by = "protocol" then
    match dictGetD conn "protocol" (Val.s "unknown") with
    | .s v => some (some (Val.s (toUpperStr v)))
    | _ => none
  else if group_by = "state" then some (some (dictGetD conn "state" (Val.s "UNKNOWN")))
  else if group_by = "src_ip" then some (some (dictGetD conn "src" (Val.s "unknown")))
  else if group_by = "dst_ip" then some (some (dictGetD conn "dst" (Val.s "unknown")))
  else if group_by = "sport" then some (some (dictGetD conn "sport" (Val.s "unknown")))
  else if group_by = "dport" then some (some (dictGetD conn "dport" (Val.s "unknown")))
  else if group_by = "port" then
    let sport := dictGetD conn "sport" (Val.s "unknown")
    let dport := dictGetD conn "dport" (Val.s "unknown")
    some (some (Val.s (pyStrVal sport ++ ":" ++ pyStrVal dport)))
  else some none

/-- Update of stats[key] for one record: count += 1, bytes added, total
reassigned as the sum. -/
def bucketBump (st : List (Val × Bucket)) (key : Val) (bs br : Int) :
    List (Val × Bucket) :=
  match st with
  | [] => [(key, ⟨0 + 1, 0 + bs, 0 + br, (0 + bs) + (0 + br)⟩)]
  | (k, bu) :: rest =>
    if k = key then
      (k, ⟨bu.count + 1, bu.bytes_sent + bs, bu.bytes_recv + br,
        (bu.bytes_sent + bs) + (bu.bytes_recv + br)⟩) :: rest
    else (k, bu) :: bucketBump rest key bs br

/-- One record's contribution to the grouping stats. -/
def gstatsStep (group_by : String) (st : List (Val × Bucket)) (conn : PyDict) :
    Option (List (Val × Bucket)) := do
  let keyOpt ← groupKeyOf group_by conn
  match keyOpt with
  | none => pure st
  | some key =>
    if pyTruthy key && key ≠ Val.s "unknown" then do
      let bs ← pyIntOfVal (dictGetD conn "bytes_sent" (Val.n 0))
      let br ← pyIntOfVal (dictGetD conn "bytes_recv" (Val.n 0))
      pure (bucketBump st key bs br)
    else pure st

/-- ConntrackParser.get_grouping_stats; none models a propagated exception
(int() on a non-numeric string, or upper() on a non-string protocol). -/
def get_grouping_stats (connections : List PyDict) (group_by : String) :
    Option (List (Val × Bucket)) :=
  connections.foldlM (gstatsStep group_by) []

/-! ## ConntrackParser.get_conntrack_data

The three tool invocations and two pseudo-file reads are effects; each source
is embedded as an Option String: some output stands for a run that completed
with exit status 0 (resp. a readable file), none for the caught failures
(FileNotFoundError, PermissionError, timeout) and for a non-zero exit status,
which falls through identically. -/

def get_conntrack_data (s1 s2 s3 : Option String) (f4 f5 : Option String) :
    List PyDict :=
  let step5 : List PyDict :=
    match f5 with
    | some content => if pyStrip content ≠ "" then parse_proc_conntrack content else []
    | none => []
  let step4 : List PyDict :=
    match f4 with
    | some content => if pyStrip content ≠ "" then parse_proc_conntrack content else step5
    | none => step5
  let step3 : List PyDict :=
    match s3 with
    | some out => if pyStrip out ≠ "" then parse_conntrack_output out else step4
    | none => step4
  let step2 : List PyDict :=
    match s2 with
    | some out => if pyStrip out ≠ "" then parse_conntrack_output out else step3
    | none => step3
  match s1 with
  | some out =>
    if pyStrip out ≠ "" then
      let connections := parse_conntrack_output out
      if connections ≠ [] then connections else step2
    else step2
  | none => step2

/-! ## AnomalyDetector._extract_features -/

def protocolMap : List (String × Int) :=
  [("tcp", 0), ("udp", 1), ("icmp", 2), ("icmpv6", 3), ("gre", 4), ("esp", 5), ("ah", 6)]

def stateMap : List (String × Int) :=
  [("ESTABLISHED", 0), ("TIME_WAIT", 1), ("CLOSE", 2), ("CLOSE_WAIT", 3),
   ("SYN_SENT", 4), ("SYN_RECV", 5), ("FIN_WAIT", 6), ("LAST_ACK", 7),
   ("LISTEN", 8), ("NEW", 9), ("RELATED", 10), ("NONE", 11)]

def assocGetD (m : List (String × Int)) (k : String) (dflt : Int) : Int :=
  match m with
  | [] => dflt
  | (k', v) :: rest => if k' = k then v else assocGetD rest k dflt

/-- Python c.get(key, 0) or 0, coerced for arithmetic. none models the
TypeError raised downstream when the stored value is a non-empty string. -/
def byteOr0 (conn : PyDict) (key : String) : Option Int :=
  match dictGetD conn key (Val.n 0) with
  | .n v => some v
  | .b v => some (if v then 1 else 0)
  | .s v => if v = "" then some 0 else none

/-- The (up to two) entries one record appends to the ports list. A non-string
sport raises AttributeError inside the inner try, so only the bare except's
single 0 is appended; a non-string dport raises after sport's entry. -/
def portContrib (conn : PyDict) : List Int :=
  match dictGetD conn "sport" (Val.s "0") with
  | .s sp =>
    let a : Int := if pyIsDigitStr sp then (strToNat sp : Int) else 0
    match dictGetD conn "dport" (Val.s "0") with
    | .s dp => [a, if pyIsDigitStr dp then (strToNat dp : Int) else 0]
    | _ => [a, 0]
  | _ => [0]

/-- Frequency table over a list of values (dict insertion order kept). -/
def freqOf : List (Val × Nat) → List Val → List (Val × Nat)
  | acc, [] => acc
  | acc, v :: rest => freqOf (bumpCount acc v) rest

def freqGet (freq : List (Val × Nat)) (v : Val) (dflt : Nat) : Nat :=
  match freq with
  | [] => dflt
  | (k, c) :: rest => if k = v then c else freqGet rest v dflt

/-- Python max(list) if list else 1, over ints. -/
def pyMaxIntD1 : List Int → Int
  | [] => 1
  | x :: xs => xs.foldl max x

def pyMaxNatD1 : List Nat → Nat
  | [] => 1
  | x :: xs => xs.foldl max x

/-- Batch-wide statistics computed once per _extract_features call. -/
structure FeatStats where
  maxSent : Int
  maxRecv : Int
  maxTotal : Int
  maxPort : Int
  freq : List (Val × Nat)
  maxFreq : Nat

/-- One feature vector [protocol, state, bytes_sent_norm, bytes_recv_norm,
total_bytes_norm, port_norm, uniqueness]; none models an uncaught exception
(lower() on a non-string protocol, or string arithmetic on byte fields). -/
def featureRow (st : FeatStats) (conn : PyDict) : Option (List ℚ) := do
  let protoCode : Int ←
    match dictGetD conn "protocol" (Val.s "unknown") with
    | .s v => some (assocGetD protocolMap (toLowerStr v) 7)
    | _ => none
  let stateCode : Int :=
    match dictGetD conn "state" (Val.s "NONE") with
    | .s v => assocGetD stateMap v 11
    | _ => 11
  let bytesSent ← byteOr0 conn "bytes_sent"
  let bytesRecv ← byteOr0 conn "bytes_recv"
  let totalBytes ← byteOr0 conn "total_bytes"
  let sentNorm : ℚ := if st.maxSent > 0 then (bytesSent : ℚ) / (st.maxSent : ℚ) else 0
  let recvNorm : ℚ := if st.maxRecv > 0 then (bytesRecv : ℚ) / (st.maxRecv : ℚ) else 0
  let totalNorm : ℚ := if st.maxTotal > 0 then (totalBytes : ℚ) / (st.maxTotal : ℚ) else 0
  let portNorm : ℚ :=
    match dictGetD conn "dport" (Val.s "0") with
    | .s dp =>
      let portNum : Int := if pyIsDigitStr dp then (strToNat dp : Int) else 0
      if st.maxPort > 0 then (portNum : ℚ) / (st.maxPort : ℚ) else 0
    | _ => 0
  let srcFreq : Nat := freqGet st.freq (dictGetD conn "src" (Val.s "")) 1
  let dstFreq : Nat := freqGet st.freq (dictGetD conn "dst" (Val.s "")) 1
  let avgFreq : ℚ := ((srcFreq : ℚ) + (dstFreq : ℚ)) / 2
  let uniqueness : ℚ :=
    if st.maxFreq > 0 then 1 - avgFreq / (st.maxFreq : ℚ) else 1 / 2
  pure [(protoCode : ℚ), (stateCode : ℚ), sentNorm, recvNorm, totalNorm,
    portNorm, uniqueness]

/-- AnomalyDetector._extract_features; none models an exception escaping to the
caller's blanket handler. -/
def extract_features (connections : List PyDict) : Option (List (List ℚ)) :=
  if connections.isEmpty then some []
  else do
    let sentList ← connections.mapM (fun c => byteOr0 c "bytes_sent")
    let recvList ← connections.mapM (fun c => byteOr0 c "bytes_recv")
    let totalList ← connections.mapM (fun c => byteOr0 c "total_bytes")
    let ports := (connections.map portContrib).flatten
    let srcIps := connections.map (fun c => dictGetD c "src" (Val.s ""))
    let dstIps := connections.map (fun c => dictGetD c "dst" (Val.s ""))
    let freq := freqOf [] (srcIps ++ dstIps)
    let st : FeatStats :=
      { maxSent := pyMaxIntD1 sentList
        maxRecv := pyMaxIntD1 recvList
        maxTotal := pyMaxIntD1 totalList
        maxPort := pyMaxIntD1 ports
        freq := freq
        maxFreq := pyMaxNatD1 (freq.map (fun p => p.2)) }
    connections.mapM (featureRow st)

/-! ## AnomalyDetector.detect_anomalies

The scikit-learn scaler and IsolationForest are external artifacts; they enter
the embedding as function parameters (the fitted-model reuse branch only
changes which such functions are applied, not the shape of the result). -/

/-- The fitted-model scoring path: scale, predict, collect indices predicted
-1, and sort them ascending by score (Python list.sort is stable ascending). -/
def detect_core (scaler : List (List ℚ) → List (List ℚ))
    (predictFn : List (List ℚ) → List Int)
    (scoreFn : List (List ℚ) → List ℚ)
    (feats : List (List ℚ)) : List Nat × List ℚ :=
  let scaled := scaler feats
  let predictions := predictFn scaled
  let scores := scoreFn scaled
  let idxs := (List.range predictions.length).filter
    (fun i => predictions.getD i 0 = -1)
  let ranked := sortStable
    (fun i j => decide (scores.getD i 0 < scores.getD j 0)) idxs
  (ranked, scores)

def detect_anomalies (scaler : List (List ℚ) → List (List ℚ))
    (predictFn : List (List ℚ) → List Int)
    (scoreFn : List (List ℚ) → List ℚ)
    (connections : List PyDict) : List Nat × List ℚ :=
  if connections.length < 10 then ([], [])
  else
    match extract_features connections with
    | none => ([], [])
    | some feats =>
      if feats.length = 0 then ([], [])
      else detect_core scaler predictFn scoreFn feats

/-! ## DatabaseManager (database.py)

Timestamps are UTC instants embedded as integers (seconds); SQLAlchemy's
session is embedded as committed state plus pending inserts, with commit the
only operation that changes the stored state and rollback discarding the
pending inserts. -/

structure ConnRow where
  timestamp : Int
  protocol : Option Val
  state : Option Val
  src : Option Val
  dst : Option Val
  sport : Option Val
  dport : Option Val
  flags : Option Val
  mark : Option Val
  use : Option Val
  bytes_sent : Val
  bytes_recv : Val
deriving DecidableEq

structure MetricRow where
  timestamp : Int
  metric_type : String
  metric_key : String
  count : Val
  bytes_sent : Val
  bytes_recv : Val
  total_bytes : Val
deriving DecidableEq

structure DB where
  conn_rows : List ConnRow
  metric_rows : List MetricRow
deriving DecidableEq

structure Session where
  committed : DB
  pending_conn : List ConnRow
  pending_metric : List MetricRow

def Session.commit (s : Session) : DB :=
  { conn_rows := s.committed.conn_rows ++ s.pending_conn
    metric_rows := s.committed.metric_rows ++ s.pending_metric }

def Session.rollback (s : Session) : DB := s.committed

def Session.addConns (s : Session) (rows : List ConnRow) : Session :=
  { s with pending_conn := s.pending_conn ++ rows }

def Session.addMetric (s : Session) (row : MetricRow) : Session :=
  { s with pending_metric := s.pending_metric ++ [row] }

/-- The ConnectionSnapshot constructed from one record. -/
def connRowOf (ts : Int) (c : PyDict) : ConnRow :=
  { timestamp := ts
    protocol := dictGet c "protocol"
    state := dictGet c "state"
    src := dictGet c "src"
    dst := dictGet c "dst"
    sport := dictGet c "sport"
    dport := dictGet c "dport"
    flags := dictGet c "flags"
    mark := dictGet c "mark"
    use := dictGet c "use"
    bytes_sent := dictGetD c "bytes_sent" (Val.n 0)
    bytes_recv := dictGetD c "bytes_recv" (Val.n 0) }

def batchSizeFor (total : Nat) : Nat := if total > 100000 then 500 else 1000

/-- Chunk worker; the fuel argument (the list's length at the top call) only
makes the recursion structural and is never exhausted first, since every step
with a positive chunk size drops at least one element. -/
def chunksOfFuel (n : Nat) : Nat → List α → List (List α)
  | _, [] => []
  | 0, l => [l]
  | fuel + 1, x :: xs =>
    if n = 0 then [x :: xs]
    else (x :: xs).take n :: chunksOfFuel n fuel ((x :: xs).drop n)

/-- The batch loop of save_snapshot: connections in chunks of batch_size. -/
def chunksOf (n : Nat) (l : List α) : List (List α) := chunksOfFuel n l.length l

/-- Python + on the metric byte values: ints and bools add, strings
concatenate, mixing a string with a number raises TypeError (none). -/
def pyAdd : Val → Val → Option Val
  | .n a, .n c => some (.n (a + c))
  | .n a, .b c => some (.n (a + (if c then 1 else 0)))
  | .b a, .n c => some (.n ((if a then 1 else 0) + c))
  | .b a, .b c => some (.n ((if a then 1 else 0) + (if c then 1 else 0)))
  | .s a, .s c => some (.s (a ++ c))
  | _, _ => none

/-- One value of a metrics grouping: a nested dict (represented by its count /
bytes_sent / bytes_recv lookups, each defaulting to int 0), or a plain value. -/
inductive MVal where
  | mdict (count bytes_sent bytes_recv : Val)
  | msimple (v : Val)

/-- The metrics argument: per metric-type, either a dict of key/value items or
(none) a non-dict that the source skips. -/
abbrev Metrics := List (String × Option (List (String × MVal)))

def metricTypeMap : List (String × String) :=
  [("by_protocol", "protocol"), ("by_state", "state"), ("by_src_ip", "src_ip"),
   ("by_dst_ip", "dst_ip"), ("by_sport", "sport"), ("by_dport", "dport"),
   ("by_port", "port")]

def mapMetricType (k : String) : String :=
  match metricTypeMap.lookup k with
  | some v => v
  | none => k

/-- count for a non-dict metrics value: the value itself when it is an int
(Python bools are ints), else 0. -/
def simpleCount : Val → Val
  | .n v => .n v
  | .b v => .b v
  | .s _ => .n 0

/-- session.add of one MetricSnapshot; the error payload is the session at the
point the TypeError (bytes_sent + bytes_recv) is raised. -/
def addMetricItem (ts : Int) (mt : String) (s : Session) (key : String) :
    MVal → Except Session Session
  | .mdict count bs br =>
    match pyAdd bs br with
    | some total => .ok (s.addMetric ⟨ts, mt, key, count, bs, br, total⟩)
    | none => .error s
  | .msimple v =>
    .ok (s.addMetric ⟨ts, mt, key, simpleCount v, .n 0, .n 0, .n 0⟩)

/-- The metrics loop of save_snapshot. -/
def addMetricRows (ts : Int) (s : Session) (ms : Metrics) :
    Except Session Session :=
  ms.foldlM
    (fun s p =>
      match p.2 with
      | none => .ok s
      | some items =>
        items.foldlM (fun s it => addMetricItem ts (mapMetricType p.1) s it.1 it.2) s)
    s

/-- DatabaseManager.save_snapshot: the Except component is the call's outcome
(error re-raised to the caller), the DB component the stored state after the
call (commit on success, rollback on error). -/
def save_snapshot (db : DB) (ts : Int) (connections : List PyDict)
    (metrics : Option Metrics) : Except Unit Unit × DB :=
  let s0 : Session := ⟨db, [], []⟩
  let s1 := (chunksOf (batchSizeFor connections.length) connections).foldl
    (fun s chunk => s.addConns (chunk.map (connRowOf ts))) s0
  match metrics with
  | none => (.ok (), s1.commit)
  | some ms =>
    match addMetricRows ts s1 ms with
    | .ok s2 => (.ok (), s2.commit)
    | .error sErr => (.error (), sErr.rollback)

/-- DatabaseManager.cleanup_old_data: delete snapshot rows of both tables older
than now minus days_to_keep (one day = 86400 embedded seconds). -/
def cleanup_old_data (now : Int) (days_to_keep : Int) (db : DB) : DB :=
  let cutoff := now - days_to_keep * 86400
  { conn_rows := db.conn_rows.filter (fun r => !decide (r.timestamp < cutoff))
    metric_rows := db.metric_rows.filter (fun r => !decide (r.timestamp < cutoff)) }

/-! ## Shared lemmas about the dict embedding -/

theorem dictGet_dictSet_self (d : PyDict) (k : String) (v : Val) :
    dictGet (dictSet d k v) k = some v := by
  induction d with
  | nil => simp [dictSet, dictGet]
  | cons hd tl ih =>
    obtain ⟨k', w⟩ := hd
    by_cases h : k' = k <;> simp [dictSet, dictGet, h, ih]

theorem dictGet_dictSet_ne (d : PyDict) {k k' : String} (v : Val) (h : k ≠ k') :
    dictGet (dictSet d k v) k' = dictGet d k' := by
  induction d with
  | nil => simp [dictSet, dictGet, h]
  | cons hd tl ih =>
    obtain ⟨k'', w⟩ := hd
    by_cases h2 : k'' = k
    · subst h2
      simp [dictSet, dictGet, h]
    · simp only [dictSet, if_neg h2]
      by_cases h3 : k'' = k' <;> simp [dictGet, h3, ih]

/-! ## C3: invalid lines are dropped by both parsers -/

theorem parseConnLine_some_src_dst {line : String} {c : PyDict}
    (h : parseConnLine line = some c) :
    (dictGet c "src").isSome ∧ (dictGet c "dst").isSome := by
  unfold parseConnLine at h
  split at h
  · simp at h
  · split at h
    · rename_i hg
      obtain rfl : connFinal (pySplitWs line) = c := by injection h
      rw [Bool.and_eq_true] at hg
      simp only [dictContains] at hg
      exact ⟨hg.1, hg.2⟩
    · simp at h

theorem parseProcLine_some_src_dst {line : String} {c : PyDict}
    (h : parseProcLine line = some c) :
    (dictGet c "src").isSome ∧ (dictGet c "dst").isSome := by
  unfold parseProcLine at h
  split at h
  · simp at h
  · split at h
    · rename_i hg
      obtain rfl : procAfterKV (pySplitWs line) = c := by injection h
      rw [Bool.and_eq_true] at hg
      simp only [dictContains] at hg
      exact ⟨hg.1, hg.2⟩
    · simp at h

theorem mem_parse_conntrack_output {text : String} {c : PyDict}
    (hc : c ∈ parse_conntrack_output text) :
    ∃ line, parseConnLine line = some c := by
  rw [parse_conntrack_output, List.mem_filterMap] at hc
  obtain ⟨l, _, hfl⟩ := hc
  refine ⟨l, ?_⟩
  split at hfl
  · simp at hfl
  · exact hfl

theorem mem_parse_proc_conntrack {text : String} {c : PyDict}
    (hc : c ∈ parse_proc_conntrack text) :
    ∃ line, parseProcLine line = some c := by
  rw [parse_proc_conntrack, List.mem_filterMap] at hc
  obtain ⟨l, _, hfl⟩ := hc
  refine ⟨l, ?_⟩
  split at hfl
  · simp at hfl
  · exact hfl

/-- C3: for both parsers, a line with fewer than 4 whitespace tokens, or whose
record lacks src or dst, contributes no record; every returned record has both
src and dst present. -/
theorem c3_invalid_lines_dropped :
    ∀ text line : String,
      (∀ c ∈ parse_conntrack_output text,
        (dictGet c "src").isSome ∧ (dictGet c "dst").isSome) ∧
      (∀ c ∈ parse_proc_conntrack text,
        (dictGet c "src").isSome ∧ (dictGet c "dst").isSome) ∧
      ((pySplitWs line).length < 4 →
        parseConnLine line = none ∧ parseProcLine line = none) := by
  intro text line
  refine ⟨?_, ?_, ?_⟩
  · intro c hc
    obtain ⟨l, hl⟩ := mem_parse_conntrack_output hc
    exact parseConnLine_some_src_dst hl
  · intro c hc
    obtain ⟨l, hl⟩ := mem_parse_proc_conntrack hc
    exact parseProcLine_some_src_dst hl
  · intro hlen
    constructor
    · unfold parseConnLine
      rw [if_pos hlen]
    · unfold parseProcLine
      rw [if_pos hlen]

/-- C3 witness: a 3-token line is dropped by both parsers. -/
theorem c3_invalid_lines_dropped_witness :
    parseConnLine "tcp 6 30" = none ∧ parseProcLine "tcp 6 30" = none :=
  (c3_invalid_lines_dropped "" "tcp 6 30").2.2 (by decide)

/-! ## C1: positional bytes= parsing -/

/-- The integer value carried by one token when it is a bytes= token whose
value int() accepts; none otherwise. -/
def bv1 (part : String) : Option Int :=
  if strContains part '=' && splitEqKey part = "bytes" then pyInt? (splitEqVal part)
  else none

/-- The successfully parsed bytes= values among a token list, in order. -/
def bytesVals (kvs : List String) : List Int := kvs.filterMap bv1

theorem kvStep_components (st : KVState) (part : String) :
    (kvStep st part).sent = (match bv1 part, st.seen with
                             | some v, false => v
                             | _, _ => st.sent) ∧
    (kvStep st part).recv = (match bv1 part, st.seen with
                             | some v, true => v
                             | _, _ => st.recv) ∧
    (kvStep st part).seen = (match bv1 part with
                             | some _ => true
                             | none => st.seen) := by
  unfold kvStep bv1
  by_cases hc : strContains part '='
  · simp only [hc, Bool.true_and, if_true]
    by_cases hk : splitEqKey part = "bytes"
    · rw [hk]
      simp only [show (("bytes" = "src" || "bytes" = "dst" || "bytes" = "sport" ||
        "bytes" = "dport") = false) by decide, Bool.false_and, Bool.if_false_left]
      simp only [show (("bytes" = "mark" || "bytes" = "use") = false) by decide]
      cases hv : pyInt? (splitEqVal part) with
      | none => simp
      | some v => cases hs : st.seen <;> simp [hs]
    · have : (splitEqKey part = "bytes") = False := by simp [hk]
      simp only [this, if_false]
      by_cases h4 : (splitEqKey part = "src" || splitEqKey part = "dst" ||
          splitEqKey part = "sport" || splitEqKey part = "dport") &&
          !dictContains st.conn (splitEqKey part)
      · simp [h4]
      · simp only [h4, if_false]
        by_cases hmu : splitEqKey part = "mark" || splitEqKey part = "use" <;>
          simp [hmu]
  · simp only [hc, Bool.false_and, if_false]
    by_cases hb : strStartsWith part "[" && strEndsWith part "]" <;> simp [hb]

theorem kvFold_seen_true (kvs : List String) :
    ∀ (c : PyDict) (s r : Int),
      (kvs.foldl kvStep ⟨c, s, r, true⟩).sent = s ∧
      (kvs.foldl kvStep ⟨c, s, r, true⟩).recv = (bytesVals kvs).getLastD r ∧
      (kvs.foldl kvStep ⟨c, s, r, true⟩).seen = true := by
  induction kvs with
  | nil => intro c s r; simp [bytesVals]
  | cons p rest ih =>
    intro c s r
    rw [List.foldl_cons]
    obtain ⟨h1, h2, h3⟩ := kvStep_components ⟨c, s, r, true⟩ p
    have hbv : bytesVals (p :: rest) =
        match bv1 p with
        | none => bytesVals rest
        | some v => v :: bytesVals rest := by
      simp [bytesVals, List.filterMap_cons]
      cases bv1 p <;> simp
    cases hp : bv1 p with
    | none =>
      rw [hp] at h1 h2 h3
      simp only at h1 h2 h3
      have hst : kvStep ⟨c, s, r, true⟩ p =
          ⟨(kvStep ⟨c, s, r, true⟩ p).conn, s, r, true⟩ := by
        cases hkv : kvStep ⟨c, s, r, true⟩ p
        simp_all
      rw [hst, hbv, hp]
      exact ih _ s r
    | some v =>
      rw [hp] at h1 h2 h3
      simp only at h1 h2 h3
      have hst : kvStep ⟨c, s, r, true⟩ p =
          ⟨(kvStep ⟨c, s, r, true⟩ p).conn, s, v, true⟩ := by
        cases hkv : kvStep ⟨c, s, r, true⟩ p
        simp_all
      rw [hst, hbv, hp]
      obtain ⟨ih1, ih2, ih3⟩ := ih ((kvStep ⟨c, s, r, true⟩ p).conn) s v
      exact ⟨ih1, by rw [ih2, List.getLastD_cons], ih3⟩

theorem kvFold_seen_false (kvs : List String) :
    ∀ (c : PyDict) (s r : Int),
      (kvs.foldl kvStep ⟨c, s, r, false⟩).sent = (bytesVals kvs).headD s ∧
      (kvs.foldl kvStep ⟨c, s, r, false⟩).recv = (bytesVals kvs).tail.getLastD r ∧
      (kvs.foldl kvStep ⟨c, s, r, false⟩).seen = !(bytesVals kvs).isEmpty := by
  induction kvs with
  | nil => intro c s r; simp [bytesVals]
  | cons p rest ih =>
    intro c s r
    rw [List.foldl_cons]
    obtain ⟨h1, h2, h3⟩ := kvStep_components ⟨c, s, r, false⟩ p
    have hbv : bytesVals (p :: rest) =
        match bv1 p with
        | none => bytesVals rest
        | some v => v :: bytesVals rest := by
      simp [bytesVals, List.filterMap_cons]
      cases bv1 p <;> simp
    cases hp : bv1 p with
    | none =>
      rw [hp] at h1 h2 h3
      simp only at h1 h2 h3
      have hst : kvStep ⟨c, s, r, false⟩ p =
          ⟨(kvStep ⟨c, s, r, false⟩ p).conn, s, r, false⟩ := by
        cases hkv : kvStep ⟨c, s, r, false⟩ p
        simp_all
      rw [hst, hbv, hp]
      exact ih _ s r
    | some v =>
      rw [hp] at h1 h2 h3
      simp only at h1 h2 h3
      have hst : kvStep ⟨c, s, r, false⟩ p =
          ⟨(kvStep ⟨c, s, r, false⟩ p).conn, v, r, true⟩ := by
        cases hkv : kvStep ⟨c, s, r, false⟩ p
        simp_all
      rw [hst, hbv, hp]
      obtain ⟨ih1, ih2, ih3⟩ := kvFold_seen_true rest ((kvStep ⟨c, s, r, false⟩ p).conn) v r
      exact ⟨by rw [ih1]; rfl, by rw [ih2]; rfl, by rw [ih3]; rfl⟩

theorem parseConnLine_some_eq {line : String} {c : PyDict}
    (h : parseConnLine line = some c) : c = connFinal (pySplitWs line) := by
  unfold parseConnLine at h
  split at h
  · simp at h
  · split at h
    · exact (Option.some.inj h).symm
    · simp at h

theorem connFinal_bytes (parts : List String) :
    dictGet (connFinal parts) "bytes_sent" = some (Val.n (connAfterKV parts).sent) ∧
    dictGet (connFinal parts) "bytes_recv" = some (Val.n (connAfterKV parts).recv) ∧
    dictGet (connFinal parts) "total_bytes" =
      some (Val.n ((connAfterKV parts).sent + (connAfterKV parts).recv)) := by
  unfold connFinal
  refine ⟨?_, ?_, ?_⟩
  · rw [dictGet_dictSet_ne _ _ (by decide), dictGet_dictSet_ne _ _ (by decide),
      dictGet_dictSet_self]
  · rw [dictGet_dictSet_ne _ _ (by decide), dictGet_dictSet_self]
  · rw [dictGet_dictSet_self]

theorem connAfterKV_sent_recv (parts : List String) :
    (connAfterKV parts).sent = (bytesVals (kvRegion parts)).headD 0 ∧
    (connAfterKV parts).recv = (bytesVals (kvRegion parts)).tail.getLastD 0 := by
  obtain ⟨h1, h2, _⟩ := kvFold_seen_false (kvRegion parts) (connInit parts) 0 0
  exact ⟨h1, h2⟩

theorem tail_getLastD_of_two_le {l : List Int} (h : 2 ≤ l.length) (d : Int) :
    l.tail.getLastD d = l.getLastD d := by
  match l with
  | [] => simp at h
  | [v] => simp at h
  | v :: w :: rest => simp only [List.tail_cons, List.getLastD_cons]

/-- C1 (amended): for a command-output line that yields a record, among the
bytes= tokens at or after the state offset whose values int() accepts, with at
least two of them, bytes_sent is the first such value, bytes_recv the last
(the second when there are exactly two), and total_bytes their sum. -/
theorem c1_bytes_positional :
    ∀ (line : String) (c : PyDict),
      parseConnLine line = some c →
      2 ≤ (bytesVals (kvRegion (pySplitWs line))).length →
      dictGet c "bytes_sent" =
        some (Val.n ((bytesVals (kvRegion (pySplitWs line))).headD 0)) ∧
      dictGet c "bytes_recv" =
        some (Val.n ((bytesVals (kvRegion (pySplitWs line))).getLastD 0)) ∧
      dictGet c "total_bytes" =
        some (Val.n ((bytesVals (kvRegion (pySplitWs line))).headD 0 +
          (bytesVals (kvRegion (pySplitWs line))).getLastD 0)) := by
  intro line c hparse hlen
  obtain rfl := parseConnLine_some_eq hparse
  obtain ⟨hb1, hb2, hb3⟩ := connFinal_bytes (pySplitWs line)
  obtain ⟨hs, hr⟩ := connAfterKV_sent_recv (pySplitWs line)
  rw [tail_getLastD_of_two_le hlen] at hr
  rw [hs] at hb1 hb3
  rw [hr] at hb2 hb3
  exact ⟨hb1, hb2, hb3⟩

/-- C1 counterexample: with three bytes= tokens (two or more, as the claim
quantifies) the record's bytes_recv is the value of the last token, 3, not the
second token's 2, and total_bytes is 4, not 1 + 2. -/
theorem c1_counterexample :
    parse_conntrack_output
      "tcp 6 30 ESTABLISHED src=1.1.1.1 dst=2.2.2.2 bytes=1 bytes=2 bytes=3" =
    [[("protocol", Val.s "tcp"), ("state", Val.s "ESTABLISHED"),
      ("src", Val.s "1.1.1.1"), ("dst", Val.s "2.2.2.2"),
      ("bytes_sent", Val.n 1), ("bytes_recv", Val.n 3),
      ("total_bytes", Val.n 4)]] := by decide

/-- C1 witness: a two-token line, bytes=100 then bytes=50. -/
theorem c1_bytes_positional_witness :
    parseConnLine "tcp 6 30 ESTABLISHED src=1.1.1.1 dst=2.2.2.2 bytes=100 bytes=50" =
      some [("protocol", Val.s "tcp"), ("state", Val.s "ESTABLISHED"),
        ("src", Val.s "1.1.1.1"), ("dst", Val.s "2.2.2.2"),
        ("bytes_sent", Val.n 100), ("bytes_recv", Val.n 50),
        ("total_bytes", Val.n 150)] ∧
    dictGet [("protocol", Val.s "tcp"), ("state", Val.s "ESTABLISHED"),
        ("src", Val.s "1.1.1.1"), ("dst", Val.s "2.2.2.2"),
        ("bytes_sent", Val.n 100), ("bytes_recv", Val.n 50),
        ("total_bytes", Val.n 150)] "bytes_sent" =
      some (Val.n ((bytesVals (kvRegion (pySplitWs
        "tcp 6 30 ESTABLISHED src=1.1.1.1 dst=2.2.2.2 bytes=100 bytes=50"))).headD 0)) := by
  constructor
  · decide
  · exact (c1_bytes_positional
      "tcp 6 30 ESTABLISHED src=1.1.1.1 dst=2.2.2.2 bytes=100 bytes=50"
      [("protocol", Val.s "tcp"), ("state", Val.s "ESTABLISHED"),
        ("src", Val.s "1.1.1.1"), ("dst", Val.s "2.2.2.2"),
        ("bytes_sent", Val.n 100), ("bytes_recv", Val.n 50),
        ("total_bytes", Val.n 150)] (by decide) (by decide)).1

/-! ## C2: first occurrence for src/dst/sport/dport, last for mark/use -/

/-- The value of one token when it is a key=value token for key k. -/
def kvOf (k : String) (part : String) : Option String :=
  if strContains part '=' && splitEqKey part = k then some (splitEqVal part) else none

/-- The first k=value token's value among a token list. -/
def firstKV (kvs : List String) (k : String) : Option String := kvs.findSome? (kvOf k)

/-- The last k=value token's value among a token list. -/
def lastKV (kvs : List String) (k : String) : Option String :=
  kvs.reverse.findSome? (kvOf k)

theorem kvStep_conn_other (st : KVState) (p : String) (k : String)
    (hor : strContains p '=' = false ∨ ¬splitEqKey p = k)
    (hflags : ¬k = "flags") (hass : ¬k = "assured") (hunr : ¬k = "unreplied") :
    dictGet (kvStep st p).conn k = dictGet st.conn k := by
  unfold kvStep
  by_cases hc : strContains p '='
  · have hkey : ¬splitEqKey p = k := hor.resolve_left (by simp [hc])
    simp only [hc, Bool.true_and, if_true]
    by_cases h4 : ((decide (splitEqKey p = "src") || decide (splitEqKey p = "dst") ||
        decide (splitEqKey p = "sport") || decide (splitEqKey p = "dport")) &&
        !dictContains st.conn (splitEqKey p)) = true
    · simp only [h4, if_true]
      exact dictGet_dictSet_ne _ _ hkey
    · simp only [h4, if_false]
      by_cases hmu : (decide (splitEqKey p = "mark") || decide (splitEqKey p = "use")) = true
      · simp only [hmu, if_true]
        exact dictGet_dictSet_ne _ _ hkey
      · simp only [hmu, if_false]
        by_cases hby : splitEqKey p = "bytes"
        · simp only [hby, if_true]
          cases pyInt? (splitEqVal p) with
          | none => rfl
          | some v => cases hs : st.seen <;> simp [hs]
        · simp [hby]
  · simp only [hc, Bool.false_and, if_false]
    by_cases hb : (strStartsWith p "[" && strEndsWith p "]") = true
    · simp only [hb, if_true]
      have hf : ("flags" : String) ≠ k := fun h => hflags h.symm
      have ha : ("assured" : String) ≠ k := fun h => hass h.symm
      have hu : ("unreplied" : String) ≠ k := fun h => hunr h.symm
      by_cases h1 : hasSubstr (pyStripBr p) "ASSURED" <;>
        by_cases h2 : hasSubstr (pyStripBr p) "UNREPLIED" <;>
          simp [h1, h2, dictGet_dictSet_ne _ _ hf, dictGet_dictSet_ne _ _ ha,
            dictGet_dictSet_ne _ _ hu]
    · simp [hb, hc]

theorem kvStep_conn_four (st : KVState) (p : String) (k : String)
    (hk : k = "src" ∨ k = "dst" ∨ k = "sport" ∨ k = "dport") :
    dictGet (kvStep st p).conn k =
      (dictGet st.conn k).or ((kvOf k p).map Val.s) := by
  by_cases hkey : splitEqKey p = k
  · by_cases hc : strContains p '='
    · rcases hk with rfl | rfl | rfl | rfl <;>
        rcases hget : dictGet st.conn (splitEqKey p) with _ | w <;>
        · rw [hkey] at hget
          unfold kvStep kvOf
          simp [hc, hkey, hget, dictContains, dictGet_dictSet_self, Option.or]
    · have hnone : kvOf k p = none := by unfold kvOf; simp [hc]
      rw [hnone]
      have heq : dictGet (kvStep st p).conn k = dictGet st.conn k := by
        refine kvStep_conn_other st p k (Or.inl (by simp [hc])) ?_ ?_ ?_ <;>
          rcases hk with rfl | rfl | rfl | rfl <;> simp_all
      rw [heq, Option.map_none', Option.or_none]
  · have hnone : kvOf k p = none := by unfold kvOf; simp [hkey]
    rw [hnone]
    have heq : dictGet (kvStep st p).conn k = dictGet st.conn k := by
      refine kvStep_conn_other st p k (Or.inr hkey) ?_ ?_ ?_ <;>
        rcases hk with rfl | rfl | rfl | rfl <;> simp_all
    rw [heq, Option.map_none', Option.or_none]

theorem kvStep_conn_markuse (st : KVState) (p : String) (k : String)
    (hk : k = "mark" ∨ k = "use") :
    dictGet (kvStep st p).conn k =
      ((kvOf k p).map Val.s).or (dictGet st.conn k) := by
  by_cases hkey : splitEqKey p = k
  · by_cases hc : strContains p '='
    · rcases hk with rfl | rfl <;>
        · unfold kvStep kvOf
          simp [hc, hkey, dictContains, dictGet_dictSet_self, Option.or]
    · have hnone : kvOf k p = none := by unfold kvOf; simp [hc]
      rw [hnone, Option.map_none', Option.none_or]
      refine kvStep_conn_other st p k (Or.inl (by simp [hc])) ?_ ?_ ?_ <;>
        rcases hk with rfl | rfl <;> simp_all
  · have hnone : kvOf k p = none := by unfold kvOf; simp [hkey]
    rw [hnone, Option.map_none', Option.none_or]
    refine kvStep_conn_other st p k (Or.inr hkey) ?_ ?_ ?_ <;>
      rcases hk with rfl | rfl <;> simp_all

theorem firstKV_cons (p : String) (rest : List String) (k : String) :
    firstKV (p :: rest) k = (kvOf k p).or (firstKV rest k) := by
  unfold firstKV
  rw [List.findSome?_cons]
  cases kvOf k p <;> rfl

theorem lastKV_cons (p : String) (rest : List String) (k : String) :
    lastKV (p :: rest) k = (lastKV rest k).or (kvOf k p) := by
  unfold lastKV
  rw [List.reverse_cons, List.findSome?_append]
  cases List.findSome? (kvOf k) rest.reverse <;>
    cases hq : kvOf k p <;> simp [Option.or, List.findSome?_cons, hq]

theorem kvFold_four (kvs : List String) (k : String)
    (hk : k = "src" ∨ k = "dst" ∨ k = "sport" ∨ k = "dport") :
    ∀ (c : PyDict) (s r : Int) (sn : Bool),
      dictGet ((kvs.foldl kvStep ⟨c, s, r, sn⟩).conn) k =
        (dictGet c k).or ((firstKV kvs k).map Val.s) := by
  induction kvs with
  | nil =>
    intro c s r sn
    simp [firstKV, List.findSome?]
  | cons p rest ih =>
    intro c s r sn
    rw [List.foldl_cons]
    have hstep := kvStep_conn_four ⟨c, s, r, sn⟩ p k hk
    simp only at hstep
    have hfold := ih (kvStep ⟨c, s, r, sn⟩ p).conn (kvStep ⟨c, s, r, sn⟩ p).sent
      (kvStep ⟨c, s, r, sn⟩ p).recv (kvStep ⟨c, s, r, sn⟩ p).seen
    rw [hfold, hstep, firstKV_cons]
    cases dictGet c k <;> cases kvOf k p <;> simp [Option.or]

theorem kvFold_markuse (kvs : List String) (k : String)
    (hk : k = "mark" ∨ k = "use") :
    ∀ (c : PyDict) (s r : Int) (sn : Bool),
      dictGet ((kvs.foldl kvStep ⟨c, s, r, sn⟩).conn) k =
        ((lastKV kvs k).map Val.s).or (dictGet c k) := by
  induction kvs with
  | nil =>
    intro c s r sn
    simp [lastKV, List.findSome?]
  | cons p rest ih =>
    intro c s r sn
    rw [List.foldl_cons]
    have hstep := kvStep_conn_markuse ⟨c, s, r, sn⟩ p k hk
    simp only at hstep
    have hfold := ih (kvStep ⟨c, s, r, sn⟩ p).conn (kvStep ⟨c, s, r, sn⟩ p).sent
      (kvStep ⟨c, s, r, sn⟩ p).recv (kvStep ⟨c, s, r, sn⟩ p).seen
    rw [hfold, hstep, lastKV_cons]
    cases lastKV rest k <;> cases kvOf k p <;> cases dictGet c k <;> simp [Option.or]

theorem connFinal_get_eq (parts : List String) (k : String)
    (h1 : ¬k = "bytes_sent") (h2 : ¬k = "bytes_recv") (h3 : ¬k = "total_bytes") :
    dictGet (connFinal parts) k = dictGet (connAfterKV parts).conn k := by
  unfold connFinal
  rw [dictGet_dictSet_ne _ _ (fun h => h3 h.symm),
    dictGet_dictSet_ne _ _ (fun h => h2 h.symm),
    dictGet_dictSet_ne _ _ (fun h => h1 h.symm)]

theorem connInit_get_none (parts : List String) (k : String)
    (hp : ¬k = "protocol") (hs : ¬k = "state") :
    dictGet (connInit parts) k = none := by
  unfold connInit
  rw [dictGet_dictSet_ne _ _ (fun h => hs h.symm),
    dictGet_dictSet_ne _ _ (fun h => hp h.symm)]
  rfl

/-- C2 (amended): for a command-output line that yields a record,
src/dst/sport/dport hold the value of the first occurrence of their key among
the tokens at or after the state offset, and mark/use the value of the last
such occurrence; occurrences before the state offset are never consulted. -/
theorem c2_first_four_last_markuse :
    ∀ (line : String) (c : PyDict) (k : String),
      parseConnLine line = some c →
      ((k = "src" ∨ k = "dst" ∨ k = "sport" ∨ k = "dport") →
        dictGet c k = (firstKV (kvRegion (pySplitWs line)) k).map Val.s) ∧
      ((k = "mark" ∨ k = "use") →
        dictGet c k = (lastKV (kvRegion (pySplitWs line)) k).map Val.s) := by
  intro line c k hparse
  obtain rfl := parseConnLine_some_eq hparse
  constructor
  · intro hk
    rw [connFinal_get_eq _ _ (by rcases hk with rfl | rfl | rfl | rfl <;> decide)
      (by rcases hk with rfl | rfl | rfl | rfl <;> decide)
      (by rcases hk with rfl | rfl | rfl | rfl <;> decide)]
    unfold connAfterKV
    rw [kvFold_four (kvRegion (pySplitWs line)) k hk (connInit (pySplitWs line)) 0 0 false]
    rw [connInit_get_none _ _ (by rcases hk with rfl | rfl | rfl | rfl <;> decide)
      (by rcases hk with rfl | rfl | rfl | rfl <;> decide)]
    simp
  · intro hk
    rw [connFinal_get_eq _ _ (by rcases hk with rfl | rfl <;> decide)
      (by rcases hk with rfl | rfl <;> decide)
      (by rcases hk with rfl | rfl <;> decide)]
    unfold connAfterKV
    rw [kvFold_markuse (kvRegion (pySplitWs line)) k hk (connInit (pySplitWs line)) 0 0 false]
    rw [connInit_get_none _ _ (by rcases hk with rfl | rfl <;> decide)
      (by rcases hk with rfl | rfl <;> decide)]
    cases lastKV (kvRegion (pySplitWs line)) k <;> rfl

/-- C2 counterexample: in this line the first occurrence of src is 1.2.3.4,
yet the record holds 9.9.9.9 — the src= token sitting at the state offset is
consumed by the state heuristic's fall-through and becomes the first scanned
occurrence. -/
theorem c2_counterexample :
    parse_conntrack_output "tcp 6 src=1.2.3.4 src=9.9.9.9 dst=5.6.7.8" =
    [[("protocol", Val.s "tcp"), ("state", Val.s "NONE"),
      ("src", Val.s "9.9.9.9"), ("dst", Val.s "5.6.7.8"),
      ("bytes_sent", Val.n 0), ("bytes_recv", Val.n 0),
      ("total_bytes", Val.n 0)]] := by decide

/-- C2 witness: duplicated src (first wins) and duplicated mark (last wins). -/
theorem c2_first_four_last_markuse_witness :
    dictGet [("protocol", Val.s "udp"), ("state", Val.s "NONE"),
        ("src", Val.s "10.0.0.1"), ("dst", Val.s "10.0.0.2"),
        ("sport", Val.s "5"), ("dport", Val.s "6"), ("mark", Val.s "2"),
        ("bytes_sent", Val.n 0), ("bytes_recv", Val.n 0), ("total_bytes", Val.n 0)]
      "src" =
      (firstKV (kvRegion (pySplitWs
        "udp 17 30 src=10.0.0.1 dst=10.0.0.2 sport=5 dport=6 src=8.8.8.8 mark=1 mark=2"))
        "src").map Val.s ∧
    dictGet [("protocol", Val.s "udp"), ("state", Val.s "NONE"),
        ("src", Val.s "10.0.0.1"), ("dst", Val.s "10.0.0.2"),
        ("sport", Val.s "5"), ("dport", Val.s "6"), ("mark", Val.s "2"),
        ("bytes_sent", Val.n 0), ("bytes_recv", Val.n 0), ("total_bytes", Val.n 0)]
      "mark" =
      (lastKV (kvRegion (pySplitWs
        "udp 17 30 src=10.0.0.1 dst=10.0.0.2 sport=5 dport=6 src=8.8.8.8 mark=1 mark=2"))
        "mark").map Val.s :=
  ⟨(c2_first_four_last_markuse
      "udp 17 30 src=10.0.0.1 dst=10.0.0.2 sport=5 dport=6 src=8.8.8.8 mark=1 mark=2"
      [("protocol", Val.s "udp"), ("state", Val.s "NONE"),
        ("src", Val.s "10.0.0.1"), ("dst", Val.s "10.0.0.2"),
        ("sport", Val.s "5"), ("dport", Val.s "6"), ("mark", Val.s "2"),
        ("bytes_sent", Val.n 0), ("bytes_recv", Val.n 0), ("total_bytes", Val.n 0)]
      "src" (by decide)).1 (Or.inl rfl),
   (c2_first_four_last_markuse
      "udp 17 30 src=10.0.0.1 dst=10.0.0.2 sport=5 dport=6 src=8.8.8.8 mark=1 mark=2"
      [("protocol", Val.s "udp"), ("state", Val.s "NONE"),
        ("src", Val.s "10.0.0.1"), ("dst", Val.s "10.0.0.2"),
        ("sport", Val.s "5"), ("dport", Val.s "6"), ("mark", Val.s "2"),
        ("bytes_sent", Val.n 0), ("bytes_recv", Val.n 0), ("total_bytes", Val.n 0)]
      "mark" (by decide)).2 (Or.inl rfl)⟩

/-! ## C4: byte-field defaults -/

theorem parseProcLine_some_eq {line : String} {c : PyDict}
    (h : parseProcLine line = some c) : c = procAfterKV (pySplitWs line) := by
  unfold parseProcLine at h
  split at h
  · simp at h
  · split at h
    · exact (Option.some.inj h).symm
    · simp at h

theorem procInit_get_none (parts : List String) (k : String)
    (hp : ¬k = "protocol") (hs : ¬k = "state") :
    dictGet (procInit parts) k = none := by
  unfold procInit
  rw [dictGet_dictSet_ne _ _ (fun h => hs h.symm),
    dictGet_dictSet_ne _ _ (fun h => hp h.symm)]
  rfl

theorem procFold_get_none (toks : List String) (k : String) :
    ∀ c : PyDict, dictGet c k = none →
      (∀ p ∈ toks, strContains p '=' = true → ¬splitEqKey p = k) →
      dictGet (toks.foldl procStep c) k = none := by
  induction toks with
  | nil => intro c hc _; simpa using hc
  | cons p rest ih =>
    intro c hc hno
    rw [List.foldl_cons]
    refine ih (procStep c p) ?_ (fun q hq => hno q (List.mem_cons_of_mem p hq))
    unfold procStep
    by_cases hcp : strContains p '='
    · rw [if_pos hcp, dictGet_dictSet_ne _ _ (hno p (List.mem_cons_self p rest) hcp)]
      exact hc
    · rw [if_neg hcp]
      exact hc

/-- C4 (amended): every record of the command-output parser carries bytes_sent,
bytes_recv and total_bytes (integers summing correctly, all 0 when the line has
no accepted bytes= token); the pseudo-file parser does not add byte fields at
all — its records lack them unless same-named key=value tokens literally occur
in the line. -/
theorem c4_byte_fields :
    ∀ (text line : String) (c : PyDict),
      (∀ d ∈ parse_conntrack_output text,
        ∃ sv rv : Int,
          dictGet d "bytes_sent" = some (Val.n sv) ∧
          dictGet d "bytes_recv" = some (Val.n rv) ∧
          dictGet d "total_bytes" = some (Val.n (sv + rv))) ∧
      (parseConnLine line = some c →
        bytesVals (kvRegion (pySplitWs line)) = [] →
        dictGet c "bytes_sent" = some (Val.n 0) ∧
        dictGet c "bytes_recv" = some (Val.n 0) ∧
        dictGet c "total_bytes" = some (Val.n 0)) ∧
      (parseProcLine line = some c →
        (∀ p ∈ (pySplitWs line).drop 4, strContains p '=' = true →
          ¬splitEqKey p = "bytes_sent" ∧ ¬splitEqKey p = "bytes_recv" ∧
          ¬splitEqKey p = "total_bytes") →
        dictGet c "bytes_sent" = none ∧ dictGet c "bytes_recv" = none ∧
        dictGet c "total_bytes" = none) := by
  intro text line c
  refine ⟨?_, ?_, ?_⟩
  · intro d hd
    obtain ⟨l, hl⟩ := mem_parse_conntrack_output hd
    obtain rfl := parseConnLine_some_eq hl
    obtain ⟨h1, h2, h3⟩ := connFinal_bytes (pySplitWs l)
    exact ⟨_, _, h1, h2, h3⟩
  · intro hparse hempty
    obtain rfl := parseConnLine_some_eq hparse
    obtain ⟨h1, h2, h3⟩ := connFinal_bytes (pySplitWs line)
    obtain ⟨hs, hr⟩ := connAfterKV_sent_recv (pySplitWs line)
    rw [hempty] at hs hr
    simp only [List.headD_nil, List.tail_nil, List.getLastD_nil] at hs hr
    rw [hs] at h1 h3
    rw [hr] at h2 h3
    exact ⟨h1, h2, h3⟩
  · intro hparse hno
    obtain rfl := parseProcLine_some_eq hparse
    unfold procAfterKV
    refine ⟨?_, ?_, ?_⟩
    · exact procFold_get_none _ _ _ (procInit_get_none _ _ (by decide) (by decide))
        (fun p hp hcp => (hno p hp hcp).1)
    · exact procFold_get_none _ _ _ (procInit_get_none _ _ (by decide) (by decide))
        (fun p hp hcp => (hno p hp hcp).2.1)
    · exact procFold_get_none _ _ _ (procInit_get_none _ _ (by decide) (by decide))
        (fun p hp hcp => (hno p hp hcp).2.2)

/-- C4 counterexample: a record produced by the pseudo-file parser carries no
bytes_sent key at all, where the claim requires it to be present with value 0. -/
theorem c4_counterexample :
    parse_proc_conntrack "ipv4 2 tcp 6 src=1.1.1.1 dst=2.2.2.2" =
      [[("protocol", Val.s "tcp"), ("state", Val.s "6"),
        ("src", Val.s "1.1.1.1"), ("dst", Val.s "2.2.2.2")]] ∧
    dictGet [("protocol", Val.s "tcp"), ("state", Val.s "6"),
        ("src", Val.s "1.1.1.1"), ("dst", Val.s "2.2.2.2")] "bytes_sent" = none := by
  constructor <;> decide

/-- C4 witness: a command-output line without bytes= tokens defaults all three
byte fields to 0, and a pseudo-file line without byte-named tokens yields a
record with none of them. -/
theorem c4_byte_fields_witness :
    (dictGet [("protocol", Val.s "udp"), ("state", Val.s "NONE"),
        ("src", Val.s "1.1.1.1"), ("dst", Val.s "2.2.2.2"),
        ("bytes_sent", Val.n 0), ("bytes_recv", Val.n 0), ("total_bytes", Val.n 0)]
      "bytes_sent" = some (Val.n 0) ∧
     dictGet [("protocol", Val.s "udp"), ("state", Val.s "NONE"),
        ("src", Val.s "1.1.1.1"), ("dst", Val.s "2.2.2.2"),
        ("bytes_sent", Val.n 0), ("bytes_recv", Val.n 0), ("total_bytes", Val.n 0)]
      "bytes_recv" = some (Val.n 0) ∧
     dictGet [("protocol", Val.s "udp"), ("state", Val.s "NONE"),
        ("src", Val.s "1.1.1.1"), ("dst", Val.s "2.2.2.2"),
        ("bytes_sent", Val.n 0), ("bytes_recv", Val.n 0), ("total_bytes", Val.n 0)]
      "total_bytes" = some (Val.n 0)) ∧
    (dictGet [("protocol", Val.s "tcp"), ("state", Val.s "6"),
        ("src", Val.s "3.3.3.3"), ("dst", Val.s "4.4.4.4")] "bytes_sent" = none ∧
     dictGet [("protocol", Val.s "tcp"), ("state", Val.s "6"),
        ("src", Val.s "3.3.3.3"), ("dst", Val.s "4.4.4.4")] "bytes_recv" = none ∧
     dictGet [("protocol", Val.s "tcp"), ("state", Val.s "6"),
        ("src", Val.s "3.3.3.3"), ("dst", Val.s "4.4.4.4")] "total_bytes" = none) :=
  ⟨(c4_byte_fields "" "udp 17 30 src=1.1.1.1 dst=2.2.2.2"
      [("protocol", Val.s "udp"), ("state", Val.s "NONE"),
        ("src", Val.s "1.1.1.1"), ("dst", Val.s "2.2.2.2"),
        ("bytes_sent", Val.n 0), ("bytes_recv", Val.n 0),
        ("total_bytes", Val.n 0)]).2.1 (by decide) (by decide),
   (c4_byte_fields "" "ipv4 2 tcp 6 src=3.3.3.3 dst=4.4.4.4"
      [("protocol", Val.s "tcp"), ("state", Val.s "6"),
        ("src", Val.s "3.3.3.3"), ("dst", Val.s "4.4.4.4")]).2.2 (by decide)
      (by decide)⟩

/-! ## C5: aggregate_by_port ranking -/

theorem mem_insertStable {α : Type} {before : α → α → Bool} {x a : α} :
    ∀ {l : List α}, a ∈ insertStable before x l ↔ a = x ∨ a ∈ l := by
  intro l
  induction l with
  | nil => simp [insertStable]
  | cons y ys ih =>
    by_cases h : before x y
    · simp [insertStable, h]
    · simp only [insertStable, h, Bool.false_eq_true, if_false, List.mem_cons, ih]
      tauto

theorem pairwise_insertStable {α : Type} {before : α → α → Bool} {R : α → α → Prop}
    (h1 : ∀ a b, before a b = true → R a b)
    (h2 : ∀ a b, before a b = false → R b a)
    (htrans : ∀ a b c, R a b → R b c → R a c)
    (x : α) : ∀ l : List α, l.Pairwise R → (insertStable before x l).Pairwise R := by
  intro l
  induction l with
  | nil => intro _; simp [insertStable]
  | cons y ys ih =>
    intro hp
    rw [List.pairwise_cons] at hp
    obtain ⟨hy, hys⟩ := hp
    by_cases h : before x y
    · rw [insertStable, if_pos h]
      refine List.Pairwise.cons ?_ (List.Pairwise.cons hy hys)
      intro b hb
      rcases List.mem_cons.mp hb with rfl | hb2
      · exact h1 _ _ h
      · exact htrans _ _ _ (h1 _ _ h) (hy b hb2)
    · rw [insertStable, if_neg h]
      refine List.Pairwise.cons ?_ (ih hys)
      intro b hb
      rcases mem_insertStable.mp hb with rfl | hb2
      · exact h2 _ _ (by simpa using h)
      · exact hy b hb2

theorem sortStable_pairwise {α : Type} {before : α → α → Bool} {R : α → α → Prop}
    (h1 : ∀ a b, before a b = true → R a b)
    (h2 : ∀ a b, before a b = false → R b a)
    (htrans : ∀ a b c, R a b → R b c → R a c)
    (l : List α) : (sortStable before l).Pairwise R := by
  unfold sortStable
  suffices h : ∀ (l acc : List α), acc.Pairwise R →
      (l.foldl (fun acc x => insertStable before x acc) acc).Pairwise R from
    h l [] (by simp)
  intro l
  induction l with
  | nil => intro acc h; simpa using h
  | cons x xs ih =>
    intro acc h
    rw [List.foldl_cons]
    exact ih _ (pairwise_insertStable h1 h2 htrans x acc h)

theorem mem_sortStable {α : Type} {before : α → α → Bool} {a : α} :
    ∀ {l : List α}, a ∈ sortStable before l ↔ a ∈ l := by
  suffices h : ∀ (l acc : List α),
      (a ∈ l.foldl (fun acc x => insertStable before x acc) acc ↔ a ∈ acc ∨ a ∈ l) by
    intro l
    rw [sortStable, h l []]
    simp
  intro l
  induction l with
  | nil => intro acc; simp
  | cons x xs ih =>
    intro acc
    rw [List.foldl_cons, ih]
    rw [mem_insertStable]
    simp
    tauto

theorem mapM_some_length {α β : Type} (f : α → Option β) :
    ∀ (l : List α) (ys : List β), l.mapM f = some ys → ys.length = l.length := by
  intro l
  induction l with
  | nil =>
    intro ys h
    simp only [List.mapM_nil, pure, Option.some.injEq] at h
    rw [← h]
    rfl
  | cons x xs ih =>
    intro ys h
    rw [List.mapM_cons] at h
    cases hf : f x with
    | none => rw [hf] at h; simp at h
    | some y =>
      rw [hf] at h
      cases hm : xs.mapM f with
      | none => rw [hm] at h; simp at h
      | some ys' =>
        rw [hm] at h
        simp only [Option.bind_some, Option.pure_def, Option.bind_eq_bind,
          Option.some_bind, Option.some.injEq] at h
        rw [← h]
        simp [ih ys' hm]

theorem mapM_some_mem {α β : Type} (f : α → Option β) :
    ∀ (l : List α) (ys : List β), l.mapM f = some ys →
      ∀ y ∈ ys, ∃ x ∈ l, f x = some y := by
  intro l
  induction l with
  | nil =>
    intro ys h
    simp only [List.mapM_nil, pure, Option.some.injEq] at h
    rw [← h]
    intro y hy
    simp at hy
  | cons x xs ih =>
    intro ys h
    rw [List.mapM_cons] at h
    cases hf : f x with
    | none => rw [hf] at h; simp at h
    | some y0 =>
      rw [hf] at h
      cases hm : xs.mapM f with
      | none => rw [hm] at h; simp at h
      | some ys' =>
        rw [hm] at h
        simp only [Option.bind_some, Option.pure_def, Option.bind_eq_bind,
          Option.some_bind, Option.some.injEq] at h
        rw [← h]
        intro y hy
        rcases List.mem_cons.mp hy with rfl | hy2
        · exact ⟨x, List.mem_cons_self x xs, hf⟩
        · obtain ⟨x', hx', hfx'⟩ := ih ys' hm y hy2
          exact ⟨x', List.mem_cons_of_mem x hx', hfx'⟩

theorem mem_bumpCount (k : Val) :
    ∀ (acc : List (Val × Nat)) (e : Val × Nat),
      e ∈ bumpCount acc k → e.1 = k ∨ e ∈ acc := by
  intro acc
  induction acc with
  | nil =>
    intro e he
    simp only [bumpCount, List.mem_singleton] at he
    left
    rw [he]
  | cons p rest ih =>
    intro e he
    obtain ⟨k', c⟩ := p
    unfold bumpCount at he
    by_cases h : k' = k
    · rw [if_pos h] at he
      rcases List.mem_cons.mp he with rfl | hr
      · left; exact h
      · right; exact List.mem_cons_of_mem _ hr
    · rw [if_neg h] at he
      rcases List.mem_cons.mp he with rfl | hr
      · right; exact List.mem_cons_self _ _
      · rcases ih e hr with h1 | h2
        · left; exact h1
        · right; exact List.mem_cons_of_mem _ h2

theorem portCounts_keys (connections : List PyDict) (port_type : String) :
    ∀ e ∈ portCounts connections port_type, e.1 ≠ Val.s "unknown" := by
  suffices h : ∀ (conns : List PyDict) (acc : List (Val × Nat)),
      (∀ e ∈ acc, e.1 ≠ Val.s "unknown") →
      ∀ e ∈ conns.foldl (portCountStep port_type) acc, e.1 ≠ Val.s "unknown" from
    h connections [] (by simp)
  intro conns
  induction conns with
  | nil => intro acc h; simpa using h
  | cons conn rest ih =>
    intro acc hacc
    rw [List.foldl_cons]
    refine ih _ ?_
    intro e he
    unfold portCountStep at he
    by_cases hu : dictGetD conn port_type (Val.s "unknown") ≠ Val.s "unknown"
    · rw [if_pos hu] at he
      rcases mem_bumpCount _ _ _ he with h1 | h2
      · rw [h1]; exact hu
      · exact hacc e h2
    · rw [if_neg hu] at he
      exact hacc e he

/-- C5 (amended): aggregate_by_port returns at most n entries, sorted
descending by the sort key (the numeric value for all-digit ports, 0 for any
other string), and excludes only the absent-port sentinel unknown before
ranking; non-numeric ports are retained with sort key 0, not excluded. -/
theorem c5_aggregate_by_port :
    ∀ (connections : List PyDict) (port_type : String) (top_n : Nat)
      (res : List (Val × Nat)),
      aggregate_by_port connections port_type top_n = some res →
      res.length ≤ top_n ∧
      res.Pairwise (fun a b => portSortKeyD b.1 ≤ portSortKeyD a.1) ∧
      ∀ e ∈ res, e.1 ≠ Val.s "unknown" := by
  intro conns pt n res h
  unfold aggregate_by_port at h
  cases hm : (portCounts conns pt).mapM
      (fun p => (portSortKey p.1).map (fun k => (k, p))) with
  | none => rw [hm] at h; simp at h
  | some keyed =>
    rw [hm] at h
    simp only [Option.some.injEq] at h
    subst h
    have hkey : ∀ kp ∈ keyed, portSortKeyD kp.2.1 = kp.1 := by
      intro kp hkp
      obtain ⟨p, _, hf⟩ := mapM_some_mem _ _ _ hm kp hkp
      cases hps : portSortKey p.1 with
      | none => rw [hps] at hf; simp at hf
      | some k =>
        rw [hps] at hf
        simp only [Option.map_some', Option.some.injEq] at hf
        rw [← hf]
        simp [portSortKeyD, hps]
    have hsorted : (sortStable (fun a b => decide (b.1 < a.1)) keyed).Pairwise
        (fun a b : Int × (Val × Nat) => b.1 ≤ a.1) :=
      @sortStable_pairwise (Int × (Val × Nat)) (fun a b => decide (b.1 < a.1))
        (fun a b => b.1 ≤ a.1)
        (fun a b hd => le_of_lt (of_decide_eq_true hd))
        (fun a b hd => not_lt.mp (of_decide_eq_false hd))
        (fun a b c hab hbc => le_trans hbc hab) keyed
    have hsorted2 : (sortStable (fun a b => decide (b.1 < a.1)) keyed).Pairwise
        (fun a b : Int × (Val × Nat) =>
          portSortKeyD b.2.1 ≤ portSortKeyD a.2.1) := by
      refine List.Pairwise.imp_of_mem ?_ hsorted
      intro a b ha hb hab
      rw [hkey a (mem_sortStable.mp ha), hkey b (mem_sortStable.mp hb)]
      exact hab
    refine ⟨List.length_take_le _ _, ?_, ?_⟩
    · refine List.Pairwise.sublist (List.take_sublist _ _) ?_
      exact (List.pairwise_map).mpr hsorted2
    · intro e he
      have he2 := List.mem_of_mem_take he
      obtain ⟨kp, hkp, hkpe⟩ := List.mem_map.mp he2
      obtain ⟨p, hp, hf⟩ := mapM_some_mem _ _ _ hm kp (mem_sortStable.mp hkp)
      cases hps : portSortKey p.1 with
      | none => rw [hps] at hf; simp at hf
      | some k =>
        rw [hps] at hf
        simp only [Option.map_some', Option.some.injEq] at hf
        have : e = p := by rw [← hkpe, ← hf]
        rw [this]
        exact portCounts_keys conns pt p hp

/-- C5 counterexample: a record whose dport is the non-numeric string abc is
counted and returned by aggregate_by_port, where the claim requires non-numeric
ports to be excluded before ranking. -/
theorem c5_counterexample :
    aggregate_by_port [[("dport", Val.s "abc")]] "dport" 20 =
      some [(Val.s "abc", 1)] ∧ pyIsDigitStr "abc" = false := by
  constructor <;> decide

/-- C5 witness: two numeric dports, top 1, numerically descending. -/
theorem c5_aggregate_by_port_witness :
    [((Val.s "443" : Val), (1 : Nat))].length ≤ 1 ∧
    [((Val.s "443" : Val), (1 : Nat))].Pairwise
      (fun a b => portSortKeyD b.1 ≤ portSortKeyD a.1) ∧
    ∀ e ∈ [((Val.s "443" : Val), (1 : Nat))], e.1 ≠ Val.s "unknown" :=
  c5_aggregate_by_port [[("dport", Val.s "80")], [("dport", Val.s "443")]]
    "dport" 1 [(Val.s "443", 1)] (by decide)

/-! ## C6: acquisition fall-through chain -/

/-- A source fails (exception or non-zero exit, i.e. none) or produces
blank-only output. -/
def srcBlank (s : Option String) : Bool :=
  match s with
  | none => true
  | some o => decide (pyStrip o = "")

/-- Source 1 falls through: it fails, is blank, or parses to zero records. -/
def s1Through (s : Option String) : Bool :=
  match s with
  | none => true
  | some o => decide (pyStrip o = "") || decide (parse_conntrack_output o = [])

theorem get_s1_through (s1 s2 s3 f4 f5 : Option String) (h : s1Through s1 = true) :
    get_conntrack_data s1 s2 s3 f4 f5 = get_conntrack_data none s2 s3 f4 f5 := by
  rcases s1 with _ | o1
  · rfl
  · simp only [s1Through, Bool.or_eq_true, decide_eq_true_eq] at h
    unfold get_conntrack_data
    rcases h with hb | hp
    · simp [hb]
    · by_cases hb2 : pyStrip o1 = ""
      · simp [hb2]
      · simp [hb2, hp]

theorem get_s2_blank (s2 s3 f4 f5 : Option String) (h : srcBlank s2 = true) :
    get_conntrack_data none s2 s3 f4 f5 = get_conntrack_data none none s3 f4 f5 := by
  rcases s2 with _ | o2
  · rfl
  · simp only [srcBlank, decide_eq_true_eq] at h
    unfold get_conntrack_data
    simp [h]

theorem get_s3_blank (s3 f4 f5 : Option String) (h : srcBlank s3 = true) :
    get_conntrack_data none none s3 f4 f5 = get_conntrack_data none none none f4 f5 := by
  rcases s3 with _ | o3
  · rfl
  · simp only [srcBlank, decide_eq_true_eq] at h
    unfold get_conntrack_data
    simp [h]

theorem get_f4_blank (f4 f5 : Option String) (h : srcBlank f4 = true) :
    get_conntrack_data none none none f4 f5 = get_conntrack_data none none none none f5 := by
  rcases f4 with _ | o4
  · rfl
  · simp only [srcBlank, decide_eq_true_eq] at h
    unfold get_conntrack_data
    simp [h]

theorem get_f5_blank (f5 : Option String) (h : srcBlank f5 = true) :
    get_conntrack_data none none none none f5 = [] := by
  rcases f5 with _ | o5
  · rfl
  · simp only [srcBlank, decide_eq_true_eq] at h
    unfold get_conntrack_data
    simp [h]

/-- C6 (amended): the five sources are tried in order, failures (process not
found, permission denied, timeout, non-zero exit, blank output) falling
through silently, and an empty list is returned when all five fall through —
but only source 1 requires at least one parsed record to be accepted; sources
2 through 5, once they produce non-blank output, return their parse result
even when it contains zero records. -/
theorem c6_acquisition_chain :
    ∀ s1 s2 s3 f4 f5 : Option String,
      (s1Through s1 = true → srcBlank s2 = true → srcBlank s3 = true →
        srcBlank f4 = true → srcBlank f5 = true →
        get_conntrack_data s1 s2 s3 f4 f5 = []) ∧
      (∀ o1, s1 = some o1 → pyStrip o1 ≠ "" → parse_conntrack_output o1 ≠ [] →
        get_conntrack_data s1 s2 s3 f4 f5 = parse_conntrack_output o1) ∧
      (s1Through s1 = true → ∀ o2, s2 = some o2 → pyStrip o2 ≠ "" →
        get_conntrack_data s1 s2 s3 f4 f5 = parse_conntrack_output o2) ∧
      (s1Through s1 = true → srcBlank s2 = true → ∀ o3, s3 = some o3 →
        pyStrip o3 ≠ "" →
        get_conntrack_data s1 s2 s3 f4 f5 = parse_conntrack_output o3) ∧
      (s1Through s1 = true → srcBlank s2 = true → srcBlank s3 = true →
        ∀ o4, f4 = some o4 → pyStrip o4 ≠ "" →
        get_conntrack_data s1 s2 s3 f4 f5 = parse_proc_conntrack o4) ∧
      (s1Through s1 = true → srcBlank s2 = true → srcBlank s3 = true →
        srcBlank f4 = true → ∀ o5, f5 = some o5 → pyStrip o5 ≠ "" →
        get_conntrack_data s1 s2 s3 f4 f5 = parse_proc_conntrack o5) := by
  intro s1 s2 s3 f4 f5
  refine ⟨?_, ?_, ?_, ?_, ?_, ?_⟩
  · intro h1 h2 h3 h4 h5
    rw [get_s1_through _ _ _ _ _ h1, get_s2_blank _ _ _ _ h2,
      get_s3_blank _ _ _ h3, get_f4_blank _ _ h4, get_f5_blank _ h5]
  · intro o1 ho1 hb hp
    subst ho1
    unfold get_conntrack_data
    simp [hb, hp]
  · intro h1 o2 ho2 hb
    rw [get_s1_through _ _ _ _ _ h1]
    subst ho2
    unfold get_conntrack_data
    simp [hb]
  · intro h1 h2 o3 ho3 hb
    rw [get_s1_through _ _ _ _ _ h1, get_s2_blank _ _ _ _ h2]
    subst ho3
    unfold get_conntrack_data
    simp [hb]
  · intro h1 h2 h3 o4 ho4 hb
    rw [get_s1_through _ _ _ _ _ h1, get_s2_blank _ _ _ _ h2, get_s3_blank _ _ _ h3]
    subst ho4
    unfold get_conntrack_data
    simp [hb]
  · intro h1 h2 h3 h4 o5 ho5 hb
    rw [get_s1_through _ _ _ _ _ h1, get_s2_blank _ _ _ _ h2,
      get_s3_blank _ _ _ h3, get_f4_blank _ _ h4]
    subst ho5
    unfold get_conntrack_data
    simp [hb]

/-- C6 counterexample: source 1 and source 2 both produce the non-blank output
x, which parses to zero records; the pseudo-file source would yield a record,
but the function returns the empty list from source 2 without consulting it —
contradicting the claim that the first source yielding at least one parsed
record is the one returned. -/
theorem c6_counterexample :
    get_conntrack_data (some "x") (some "x") none
      (some "ipv4 2 tcp 6 src=1.1.1.1 dst=2.2.2.2") none = [] ∧
    parse_proc_conntrack "ipv4 2 tcp 6 src=1.1.1.1 dst=2.2.2.2" ≠ [] := by
  constructor <;> decide

/-- C6 witness: source 1 times out (none), source 2 yields parseable output. -/
theorem c6_acquisition_chain_witness :
    get_conntrack_data none (some "tcp 6 30 ESTABLISHED src=1.1.1.1 dst=2.2.2.2")
      none none none =
    parse_conntrack_output "tcp 6 30 ESTABLISHED src=1.1.1.1 dst=2.2.2.2" :=
  (c6_acquisition_chain none
      (some "tcp 6 30 ESTABLISHED src=1.1.1.1 dst=2.2.2.2") none none none).2.2.1
    (by decide) "tcp 6 30 ESTABLISHED src=1.1.1.1 dst=2.2.2.2" rfl (by decide)

/-! ## C7: anomaly scorer result shape -/

theorem extract_features_some_length (conns : List PyDict) (F : List (List ℚ))
    (h : extract_features conns = some F) : F.length = conns.length := by
  unfold extract_features at h
  by_cases he : conns.isEmpty
  · rw [if_pos he] at h
    simp only [Option.some.injEq] at h
    rw [← h, List.isEmpty_iff.mp he]
    rfl
  · rw [if_neg he] at h
    cases h1 : conns.mapM (fun c => byteOr0 c "bytes_sent") with
    | none => rw [h1] at h; simp at h
    | some sentList =>
      rw [h1] at h
      cases h2 : conns.mapM (fun c => byteOr0 c "bytes_recv") with
      | none => rw [h2] at h; simp at h
      | some recvList =>
        rw [h2] at h
        cases h3 : conns.mapM (fun c => byteOr0 c "total_bytes") with
        | none => rw [h3] at h; simp at h
        | some totalList =>
          rw [h3] at h
          simp only [Option.pure_def, Option.bind_eq_bind, Option.some_bind] at h
          exact mapM_some_length _ _ _ h

/-- C7: fewer than 10 records give the empty result; with 10 or more records
(and the scikit-learn contract that scaler and score_samples preserve sample
count) the scores list has the input's length and the returned indices are
sorted ascending by their score. -/
theorem c7_detect_anomalies :
    ∀ (scaler : List (List ℚ) → List (List ℚ))
      (predictFn : List (List ℚ) → List Int)
      (scoreFn : List (List ℚ) → List ℚ)
      (connections : List PyDict),
      (connections.length < 10 →
        detect_anomalies scaler predictFn scoreFn connections = ([], [])) ∧
      (∀ feats, 10 ≤ connections.length →
        extract_features connections = some feats →
        (scaler feats).length = feats.length →
        (scoreFn (scaler feats)).length = (scaler feats).length →
        (detect_anomalies scaler predictFn scoreFn connections).2.length =
          connections.length ∧
        (detect_anomalies scaler predictFn scoreFn connections).1.Pairwise
          (fun i j =>
            (detect_anomalies scaler predictFn scoreFn connections).2.getD i 0 ≤
            (detect_anomalies scaler predictFn scoreFn connections).2.getD j 0)) := by
  intro scaler predictFn scoreFn connections
  constructor
  · intro hlt
    unfold detect_anomalies
    rw [if_pos hlt]
  · intro feats hge hfeats hsc hscore
    have hfl := extract_features_some_length _ _ hfeats
    have hne : ¬connections.length < 10 := not_lt.mpr hge
    have hfz : ¬feats.length = 0 := by omega
    have hd : detect_anomalies scaler predictFn scoreFn connections =
        detect_core scaler predictFn scoreFn feats := by
      unfold detect_anomalies
      rw [if_neg hne, hfeats]
      simp [hfz]
    rw [hd]
    constructor
    · show (scoreFn (scaler feats)).length = _
      rw [hscore, hsc, hfl]
    · show (sortStable _ _).Pairwise _
      exact @sortStable_pairwise Nat
        (fun i j => decide ((scoreFn (scaler feats)).getD i 0 <
          (scoreFn (scaler feats)).getD j 0))
        (fun i j => (scoreFn (scaler feats)).getD i 0 ≤
          (scoreFn (scaler feats)).getD j 0)
        (fun a b hd2 => le_of_lt (of_decide_eq_true hd2))
        (fun a b hd2 => not_lt.mp (of_decide_eq_false hd2))
        (fun a b c hab hbc => le_trans hab hbc) _

/-- C7 witness: 10 identical records with an all-anomalous model. -/
theorem c7_detect_anomalies_witness :
    (detect_anomalies (fun x => x) (fun l => l.map (fun _ => -1))
        (fun l => l.map (fun _ => 0))
        (List.replicate 10 [("src", Val.s "a"), ("dst", Val.s "b")])).2.length =
      (List.replicate 10 [("src", Val.s "a"), ("dst", Val.s "b")] : List PyDict).length ∧
    (detect_anomalies (fun x => x) (fun l => l.map (fun _ => -1))
        (fun l => l.map (fun _ => 0))
        (List.replicate 10 [("src", Val.s "a"), ("dst", Val.s "b")])).1.Pairwise
      (fun i j =>
        (detect_anomalies (fun x => x) (fun l => l.map (fun _ => -1))
            (fun l => l.map (fun _ => 0))
            (List.replicate 10 [("src", Val.s "a"), ("dst", Val.s "b")])).2.getD i 0 ≤
        (detect_anomalies (fun x => x) (fun l => l.map (fun _ => -1))
            (fun l => l.map (fun _ => 0))
            (List.replicate 10 [("src", Val.s "a"), ("dst", Val.s "b")])).2.getD j 0) :=
  by
  obtain ⟨F, hF⟩ := Option.isSome_iff_exists.mp
    (by decide :
      (extract_features
        (List.replicate 10 [("src", Val.s "a"), ("dst", Val.s "b")])).isSome = true)
  exact (c7_detect_anomalies (fun x => x) (fun l => l.map (fun _ => -1))
      (fun l => l.map (fun _ => 0))
      (List.replicate 10 [("src", Val.s "a"), ("dst", Val.s "b")])).2
    F (by decide) hF rfl (by simp)

/-! ## C8: save_snapshot is transactional per cycle -/

theorem addConns_fold (ts : Int) (chs : List (List PyDict)) :
    ∀ s : Session,
      (chs.foldl (fun s chunk => s.addConns (chunk.map (connRowOf ts))) s).committed =
        s.committed ∧
      (chs.foldl (fun s chunk => s.addConns (chunk.map (connRowOf ts))) s).pending_metric =
        s.pending_metric ∧
      ∀ r ∈ (chs.foldl (fun s chunk => s.addConns (chunk.map (connRowOf ts))) s).pending_conn,
        r ∈ s.pending_conn ∨ r.timestamp = ts := by
  induction chs with
  | nil => intro s; exact ⟨rfl, rfl, fun r hr => Or.inl hr⟩
  | cons ch rest ih =>
    intro s
    rw [List.foldl_cons]
    obtain ⟨h1, h2, h3⟩ := ih (s.addConns (ch.map (connRowOf ts)))
    refine ⟨h1, h2, fun r hr => ?_⟩
    rcases h3 r hr with hmem | hts
    · unfold Session.addConns at hmem
      simp only [List.mem_append] at hmem
      rcases hmem with hold | hnew
      · exact Or.inl hold
      · obtain ⟨c, _, hc⟩ := List.mem_map.mp hnew
        right
        rw [← hc]
        rfl
    · exact Or.inr hts

theorem addMetricItem_ok (ts : Int) (mt : String) (s : Session)
    (key : String) (v : MVal) (s' : Session)
    (h : addMetricItem ts mt s key v = .ok s') :
    s'.committed = s.committed ∧ s'.pending_conn = s.pending_conn ∧
    ∀ r ∈ s'.pending_metric, r ∈ s.pending_metric ∨ r.timestamp = ts := by
  cases v with
  | mdict count bs br =>
    simp only [addMetricItem] at h
    cases ha : pyAdd bs br with
    | none => rw [ha] at h; simp at h
    | some total =>
      rw [ha] at h
      simp only [Except.ok.injEq] at h
      subst h
      refine ⟨rfl, rfl, fun r hr => ?_⟩
      unfold Session.addMetric at hr
      simp only [List.mem_append, List.mem_singleton] at hr
      rcases hr with hold | rfl
      · exact Or.inl hold
      · exact Or.inr rfl
  | msimple v =>
    simp only [addMetricItem, Except.ok.injEq] at h
    subst h
    refine ⟨rfl, rfl, fun r hr => ?_⟩
    unfold Session.addMetric at hr
    simp only [List.mem_append, List.mem_singleton] at hr
    rcases hr with hold | rfl
    · exact Or.inl hold
    · exact Or.inr rfl

theorem addMetricItem_err (ts : Int) (mt : String) (s : Session)
    (key : String) (v : MVal) (sE : Session)
    (h : addMetricItem ts mt s key v = .error sE) :
    sE = s := by
  cases v with
  | mdict count bs br =>
    simp only [addMetricItem] at h
    cases ha : pyAdd bs br with
    | none =>
      rw [ha] at h
      simp only [Except.error.injEq] at h
      exact h.symm
    | some total => rw [ha] at h; simp at h
  | msimple v => simp [addMetricItem] at h

theorem foldlM_item_ok (ts : Int) (mt : String) (items : List (String × MVal)) :
    ∀ (s s' : Session),
      items.foldlM (fun s it => addMetricItem ts mt s it.1 it.2) s = .ok s' →
      s'.committed = s.committed ∧ s'.pending_conn = s.pending_conn ∧
      ∀ r ∈ s'.pending_metric, r ∈ s.pending_metric ∨ r.timestamp = ts := by
  induction items with
  | nil =>
    intro s s' h
    simp only [List.foldlM_nil, pure, Except.pure, Except.ok.injEq] at h
    subst h
    exact ⟨rfl, rfl, fun r hr => Or.inl hr⟩
  | cons it rest ih =>
    intro s s' h
    rw [List.foldlM_cons] at h
    cases hstep : addMetricItem ts mt s it.1 it.2 with
    | error sE => rw [hstep] at h; simp [bind, Except.bind] at h
    | ok s1 =>
      rw [hstep] at h
      simp only [bind, Except.bind] at h
      obtain ⟨h1, h2, h3⟩ := ih s1 s' h
      obtain ⟨g1, g2, g3⟩ := addMetricItem_ok ts mt s it.1 it.2 s1 hstep
      refine ⟨h1.trans g1, h2.trans g2, fun r hr => ?_⟩
      rcases h3 r hr with hmem | hts
      · rcases g3 r hmem with hmem2 | hts2
        · exact Or.inl hmem2
        · exact Or.inr hts2
      · exact Or.inr hts

theorem foldlM_item_err (ts : Int) (mt : String) (items : List (String × MVal)) :
    ∀ (s sE : Session),
      items.foldlM (fun s it => addMetricItem ts mt s it.1 it.2) s = .error sE →
      sE.committed = s.committed ∧ sE.pending_conn = s.pending_conn := by
  induction items with
  | nil =>
    intro s sE h
    simp [List.foldlM_nil, pure, Except.pure] at h
  | cons it rest ih =>
    intro s sE h
    rw [List.foldlM_cons] at h
    cases hstep : addMetricItem ts mt s it.1 it.2 with
    | error sE2 =>
      rw [hstep] at h
      simp only [bind, Except.bind, Except.error.injEq] at h
      subst h
      rw [addMetricItem_err ts mt s it.1 it.2 sE2 hstep]
      exact ⟨rfl, rfl⟩
    | ok s1 =>
      rw [hstep] at h
      simp only [bind, Except.bind] at h
      obtain ⟨h1, h2⟩ := ih s1 sE h
      obtain ⟨g1, g2, _⟩ := addMetricItem_ok ts mt s it.1 it.2 s1 hstep
      exact ⟨h1.trans g1, h2.trans g2⟩

theorem addMetricRows_ok (ts : Int) (ms : Metrics) :
    ∀ (s s' : Session), addMetricRows ts s ms = .ok s' →
      s'.committed = s.committed ∧ s'.pending_conn = s.pending_conn ∧
      ∀ r ∈ s'.pending_metric, r ∈ s.pending_metric ∨ r.timestamp = ts := by
  unfold addMetricRows
  induction ms with
  | nil =>
    intro s s' h
    simp only [List.foldlM_nil, pure, Except.pure, Except.ok.injEq] at h
    subst h
    exact ⟨rfl, rfl, fun r hr => Or.inl hr⟩
  | cons p rest ih =>
    intro s s' h
    rw [List.foldlM_cons] at h
    cases hp : p.2 with
    | none =>
      rw [hp] at h
      dsimp only at h
      simp only [bind, Except.bind] at h
      exact ih s s' h
    | some items =>
      rw [hp] at h
      dsimp only at h
      cases hstep : items.foldlM
          (fun s it => addMetricItem ts (mapMetricType p.1) s it.1 it.2) s with
      | error sE => rw [hstep] at h; simp [bind, Except.bind] at h
      | ok s1 =>
        rw [hstep] at h
        simp only [bind, Except.bind] at h
        obtain ⟨h1, h2, h3⟩ := ih s1 s' h
        obtain ⟨g1, g2, g3⟩ := foldlM_item_ok ts (mapMetricType p.1) items s s1 hstep
        refine ⟨h1.trans g1, h2.trans g2, fun r hr => ?_⟩
        rcases h3 r hr with hmem | hts
        · rcases g3 r hmem with hmem2 | hts2
          · exact Or.inl hmem2
          · exact Or.inr hts2
        · exact Or.inr hts

theorem addMetricRows_err (ts : Int) (ms : Metrics) :
    ∀ (s sE : Session), addMetricRows ts s ms = .error sE →
      sE.committed = s.committed := by
  unfold addMetricRows
  induction ms with
  | nil =>
    intro s sE h
    simp [List.foldlM_nil, pure, Except.pure] at h
  | cons p rest ih =>
    intro s sE h
    rw [List.foldlM_cons] at h
    cases hp : p.2 with
    | none =>
      rw [hp] at h
      dsimp only at h
      simp only [bind, Except.bind] at h
      exact ih s sE h
    | some items =>
      rw [hp] at h
      dsimp only at h
      cases hstep : items.foldlM
          (fun s it => addMetricItem ts (mapMetricType p.1) s it.1 it.2) s with
      | error sE2 =>
        rw [hstep] at h
        simp only [bind, Except.bind, Except.error.injEq] at h
        subst h
        exact (foldlM_item_err ts (mapMetricType p.1) items s sE2 hstep).1
      | ok s1 =>
        rw [hstep] at h
        simp only [bind, Except.bind] at h
        obtain ⟨g1, _, _⟩ := foldlM_item_ok ts (mapMetricType p.1) items s s1 hstep
        exact (ih s1 sE h).trans g1

/-- C8: a failure during save_snapshot's writes leaves the stored state exactly
as it was (the whole cycle rolls back) and the error is re-raised; on success
the stored state is the old one plus the cycle's rows, all of which carry the
cycle's single timestamp. -/
theorem c8_save_snapshot_atomic :
    ∀ (db : DB) (ts : Int) (connections : List PyDict) (metrics : Option Metrics),
      (∀ (e : Unit) (db' : DB),
        save_snapshot db ts connections metrics = (.error e, db') → db' = db) ∧
      (∀ db' : DB,
        save_snapshot db ts connections metrics = (.ok (), db') →
        ∃ nc nm, db'.conn_rows = db.conn_rows ++ nc ∧
          db'.metric_rows = db.metric_rows ++ nm ∧
          (∀ r ∈ nc, r.timestamp = ts) ∧ ∀ r ∈ nm, r.timestamp = ts) := by
  intro db ts connections metrics
  obtain ⟨hc1, hc2, hc3⟩ := addConns_fold ts
    (chunksOf (batchSizeFor connections.length) connections) ⟨db, [], []⟩
  cases metrics with
  | none =>
    constructor
    · intro e db' h
      unfold save_snapshot at h
      dsimp only at h
      simp only [Prod.mk.injEq] at h
      exact absurd h.1 (by simp)
    · intro db' h
      unfold save_snapshot at h
      dsimp only at h
      simp only [Prod.mk.injEq] at h
      rw [← h.2]
      unfold Session.commit
      rw [hc1, hc2]
      refine ⟨_, _, rfl, rfl, fun r hr => ?_, fun r hr => absurd hr (by simp)⟩
      rcases hc3 r hr with hmem | hts
      · exact absurd hmem (by simp)
      · exact hts
  | some ms =>
    constructor
    · intro e db' h
      unfold save_snapshot at h
      dsimp only at h
      cases hrows : addMetricRows ts
          ((chunksOf (batchSizeFor connections.length) connections).foldl
            (fun s chunk => s.addConns (chunk.map (connRowOf ts))) ⟨db, [], []⟩) ms with
      | ok s2 =>
        rw [hrows] at h
        simp only [Prod.mk.injEq] at h
        exact absurd h.1 (by simp)
      | error sE =>
        rw [hrows] at h
        simp only [Prod.mk.injEq] at h
        rw [← h.2]
        unfold Session.rollback
        rw [addMetricRows_err ts ms _ sE hrows, hc1]
    · intro db' h
      unfold save_snapshot at h
      dsimp only at h
      cases hrows : addMetricRows ts
          ((chunksOf (batchSizeFor connections.length) connections).foldl
            (fun s chunk => s.addConns (chunk.map (connRowOf ts))) ⟨db, [], []⟩) ms with
      | error sE =>
        rw [hrows] at h
        simp only [Prod.mk.injEq] at h
        exact absurd h.1 (by simp)
      | ok s2 =>
        rw [hrows] at h
        simp only [Prod.mk.injEq] at h
        rw [← h.2]
        obtain ⟨g1, g2, g3⟩ := addMetricRows_ok ts ms _ s2 hrows
        unfold Session.commit
        rw [g1, hc1]
        refine ⟨_, _, rfl, rfl, fun r hr => ?_, fun r hr => ?_⟩
        · rw [g2] at hr
          rcases hc3 r hr with hmem | hts
          · exact absurd hmem (by simp)
          · exact hts
        · rcases g3 r hr with hmem | hts
          · rw [hc2] at hmem
            exact absurd hmem (by simp)
          · exact hts

/-- C8 witness: a metrics value whose byte fields mix a string and an int makes
the write fail; the stored state is unchanged. On the side, the successful
no-metrics call appends rows carrying the cycle timestamp. -/
theorem c8_save_snapshot_atomic_witness :
    save_snapshot
        ⟨[⟨5, none, none, none, none, none, none, none, none, none,
          Val.n 0, Val.n 0⟩], []⟩ 7
        [[("src", Val.s "a"), ("dst", Val.s "b")]]
        (some [("by_protocol",
          some [("TCP", MVal.mdict (Val.n 1) (Val.s "x") (Val.n 2))])]) =
      (.error (),
        ⟨[⟨5, none, none, none, none, none, none, none, none, none,
          Val.n 0, Val.n 0⟩], []⟩) ∧
    (⟨[⟨5, none, none, none, none, none, none, none, none, none,
        Val.n 0, Val.n 0⟩], []⟩ : DB) =
      ⟨[⟨5, none, none, none, none, none, none, none, none, none,
        Val.n 0, Val.n 0⟩], []⟩ :=
  ⟨rfl,
   (c8_save_snapshot_atomic
      ⟨[⟨5, none, none, none, none, none, none, none, none, none,
        Val.n 0, Val.n 0⟩], []⟩ 7
      [[("src", Val.s "a"), ("dst", Val.s "b")]]
      (some [("by_protocol",
        some [("TCP", MVal.mdict (Val.n 1) (Val.s "x") (Val.n 2))])])).1 ()
     ⟨[⟨5, none, none, none, none, none, none, none, none, none,
       Val.n 0, Val.n 0⟩], []⟩ rfl⟩

/-! ## C9: pruning is idempotent -/

/-- C9: deleting rows older than the cutoff twice at the same clock reading,
with no writes in between, leaves both tables' row counts unchanged from the
first deletion. -/
theorem c9_cleanup_idempotent :
    ∀ (db : DB) (now days_to_keep : Int),
      (cleanup_old_data now days_to_keep
          (cleanup_old_data now days_to_keep db)).conn_rows.length =
        (cleanup_old_data now days_to_keep db).conn_rows.length ∧
      (cleanup_old_data now days_to_keep
          (cleanup_old_data now days_to_keep db)).metric_rows.length =
        (cleanup_old_data now days_to_keep db).metric_rows.length := by
  intro db now d
  unfold cleanup_old_data
  constructor <;> simp [List.filter_filter]

/-! ## C10: grouping-stats invariants -/

/-- The per-entry invariant of the grouping stats. -/
def BucketInv (e : Val × Bucket) : Prop :=
  1 ≤ e.2.count ∧ e.2.total_bytes = e.2.bytes_sent + e.2.bytes_recv ∧
    e.1 ≠ Val.s "unknown"

theorem bucketBump_inv (key : Val) (bs br : Int) (hk : key ≠ Val.s "unknown") :
    ∀ st : List (Val × Bucket), (∀ e ∈ st, BucketInv e) →
      ∀ e ∈ bucketBump st key bs br, BucketInv e := by
  intro st
  induction st with
  | nil =>
    intro _ e he
    simp only [bucketBump, List.mem_singleton] at he
    subst he
    unfold BucketInv
    refine ⟨by dsimp only; omega, by dsimp only, hk⟩
  | cons p rest ih =>
    intro hst e he
    obtain ⟨k, bu⟩ := p
    unfold bucketBump at he
    by_cases h : k = key
    · rw [if_pos h] at he
      rcases List.mem_cons.mp he with rfl | hr
      · obtain ⟨hc, ht, hku⟩ := hst (k, bu) (List.mem_cons_self _ _)
        unfold BucketInv
        refine ⟨by dsimp only at hc ⊢; omega, by dsimp only, hku⟩
      · exact hst e (List.mem_cons_of_mem _ hr)
    · rw [if_neg h] at he
      rcases List.mem_cons.mp he with rfl | hr
      · exact hst (k, bu) (List.mem_cons_self _ _)
      · exact ih (fun e2 he2 => hst e2 (List.mem_cons_of_mem _ he2)) e hr

theorem gstatsStep_inv (group_by : String) (st : List (Val × Bucket))
    (conn : PyDict) (st' : List (Val × Bucket))
    (h : gstatsStep group_by st conn = some st')
    (hst : ∀ e ∈ st, BucketInv e) : ∀ e ∈ st', BucketInv e := by
  unfold gstatsStep at h
  cases hko : groupKeyOf group_by conn with
  | none => rw [hko] at h; simp at h
  | some keyOpt =>
    rw [hko] at h
    simp only [Option.pure_def, Option.bind_eq_bind, Option.some_bind] at h
    cases keyOpt with
    | none =>
      simp only [Option.some.injEq] at h
      subst h
      exact hst
    | some key =>
      dsimp only at h
      by_cases hg : (pyTruthy key && decide (¬key = Val.s "unknown")) = true
      · rw [if_pos hg] at h
        cases hbs : pyIntOfVal (dictGetD conn "bytes_sent" (Val.n 0)) with
        | none => rw [hbs] at h; simp at h
        | some bs =>
          rw [hbs] at h
          cases hbr : pyIntOfVal (dictGetD conn "bytes_recv" (Val.n 0)) with
          | none => rw [hbr] at h; simp at h
          | some br =>
            rw [hbr] at h
            simp only [Option.some_bind, Option.some.injEq] at h
            subst h
            have hk : key ≠ Val.s "unknown" :=
              of_decide_eq_true (Bool.and_elim_right hg)
            exact bucketBump_inv key bs br hk st hst
      · rw [if_neg hg] at h
        simp only [Option.some.injEq] at h
        subst h
        exact hst

/-- C10: every entry of the returned grouping map has count at least 1 and
total_bytes equal to bytes_sent + bytes_recv, and no entry is keyed by the
exact string unknown; for the synthetic port dimension a record with both
ports absent yields the included key unknown:unknown. -/
theorem c10_grouping_stats_invariants :
    (∀ (connections : List PyDict) (group_by : String) (res : List (Val × Bucket)),
      get_grouping_stats connections group_by = some res →
      ∀ e ∈ res, 1 ≤ e.2.count ∧
        e.2.total_bytes = e.2.bytes_sent + e.2.bytes_recv ∧
        e.1 ≠ Val.s "unknown") ∧
    get_grouping_stats [[]] "port" =
      some [(Val.s "unknown:unknown", ⟨1, 0, 0, 0⟩)] := by
  constructor
  · have hfold : ∀ (group_by : String) (conns : List PyDict)
        (st : List (Val × Bucket)), (∀ e ∈ st, BucketInv e) →
        ∀ res, conns.foldlM (gstatsStep group_by) st = some res →
          ∀ e ∈ res, BucketInv e := by
      intro group_by conns
      induction conns with
      | nil =>
        intro st hst res h
        simp only [List.foldlM_nil, Option.pure_def, Option.some.injEq] at h
        subst h
        exact hst
      | cons conn rest ih =>
        intro st hst res h
        rw [List.foldlM_cons] at h
        cases hstep : gstatsStep group_by st conn with
        | none => rw [hstep] at h; simp at h
        | some st1 =>
          rw [hstep] at h
          simp only [Option.bind_eq_bind, Option.some_bind] at h
          exact ih st1 (gstatsStep_inv group_by st conn st1 hstep hst) res h
    intro connections group_by res h
    exact hfold group_by connections [] (by simp) res h
  · decide

/-- C10 witness: one record with protocol tcp and byte counters. -/
theorem c10_grouping_stats_invariants_witness :
    ∀ e ∈ [((Val.s "TCP" : Val), (⟨1, 3, 4, 7⟩ : Bucket))],
      1 ≤ e.2.count ∧ e.2.total_bytes = e.2.bytes_sent + e.2.bytes_recv ∧
      e.1 ≠ Val.s "unknown" :=
  (c10_grouping_stats_invariants).1
    [[("protocol", Val.s "tcp"), ("bytes_sent", Val.n 3), ("bytes_recv", Val.n 4)]]
    "protocol" [(Val.s "TCP", ⟨1, 3, 4, 7⟩)] (by decide)

